import Mathlib

/-!
Verification of the SAML HTTP-Redirect binding message builder
(`binding-redirect.ts`): the redirect query encoder, the signature
attachment and the three message-context builders, embedded shallowly.

The compression / base64 / percent-encoding collaborators and the small
`libsaml` / `urn` helpers are not part of the visible source; they are
modelled from the specification at byte level (JS strings are modelled by
their code-unit sequences, so the model is exact for 8-bit content).
-/

namespace SamlRedirect

/-! ## Byte-level encoding pipeline (spec-modelled collaborators) -/

/-- Modelled from the spec: raw (no-header) deflate compression of a byte
sequence, realised with DEFLATE stored blocks (`BTYPE = 00`); the first
byte of a block holds the `BFINAL`/`BTYPE` bits, then `LEN`/`NLEN` little
endian, then the literal data.  `fuel` bounds the number of non-final
blocks so the function is structurally recursive. -/
def deflateGo : Nat → List Nat → List Nat
  | 0, bs =>
      1 :: bs.length % 256 :: bs.length / 256 % 256 ::
        (65535 - bs.length) % 256 :: (65535 - bs.length) / 256 :: bs
  | fuel + 1, bs =>
      if bs.length ≤ 65535 then
        1 :: bs.length % 256 :: bs.length / 256 % 256 ::
          (65535 - bs.length) % 256 :: (65535 - bs.length) / 256 :: bs
      else
        0 :: 255 :: 255 :: 0 :: 0 :: (bs.take 65535 ++ deflateGo fuel (bs.drop 65535))

/-- Raw deflate of a byte sequence (enough fuel for the input length). -/
def deflateRaw (bs : List Nat) : List Nat := deflateGo bs.length bs

/-- Modelled from the spec: the inverse of `deflateRaw` (raw inflate,
stored blocks only), failing on malformed input. -/
def inflateGo (fuel : Nat) (l : List Nat) : Option (List Nat) :=
  match l with
  | 1 :: l0 :: l1 :: n0 :: n1 :: rest =>
      let len := l0 + 256 * l1
      if n0 + 256 * n1 = 65535 - len ∧ rest.length = len then some rest else none
  | 0 :: l0 :: l1 :: n0 :: n1 :: rest =>
      match fuel with
      | 0 => none
      | f + 1 =>
          let len := l0 + 256 * l1
          if n0 + 256 * n1 = 65535 - len ∧ len ≤ rest.length then
            match inflateGo f (rest.drop len) with
            | some tail => some (rest.take len ++ tail)
            | none => none
          else none
  | _ => none

/-- Raw inflate of a byte sequence. -/
def inflateRaw (bs : List Nat) : Option (List Nat) := inflateGo bs.length bs

/-- The base64 alphabet, index `n` is the digit of value `n`. -/
def b64Alphabet : List Char :=
  "ABCDEFGHIJKLMNOPQRSTUVWXYZabcdefghijklmnopqrstuvwxyz0123456789+/".toList

/-- Base64 digit of a 6-bit value. -/
def b64Char (n : Nat) : Char := b64Alphabet.getD n 'A'

/-- Modelled from the spec: base64 encoding of a byte sequence
(standard alphabet, with padding). -/
def base64Encode : List Nat → List Char
  | [] => []
  | [a] => [b64Char (a / 4), b64Char (a % 4 * 16), '=', '=']
  | [a, b] => [b64Char (a / 4), b64Char (a % 4 * 16 + b / 16), b64Char (b % 16 * 4), '=']
  | a :: b :: c :: rest =>
      b64Char (a / 4) :: b64Char (a % 4 * 16 + b / 16) ::
        b64Char (b % 16 * 4 + c / 64) :: b64Char (c % 64) :: base64Encode rest

/-- Value of a base64 digit. -/
def b64Val (c : Char) : Option Nat := b64Alphabet.findIdx? (fun x => x == c)

/-- Decode a final (possibly padded) base64 quantum. -/
def decodeQuadLast (c1 c2 c3 c4 : Char) : Option (List Nat) :=
  match b64Val c1, b64Val c2 with
  | some v1, some v2 =>
      if c3 = '=' then
        if c4 = '=' then some [v1 * 4 + v2 / 16] else none
      else
        match b64Val c3 with
        | some v3 =>
            if c4 = '=' then some [v1 * 4 + v2 / 16, v2 % 16 * 16 + v3 / 4]
            else
              match b64Val c4 with
              | some v4 => some [v1 * 4 + v2 / 16, v2 % 16 * 16 + v3 / 4, v3 % 4 * 64 + v4]
              | none => none
        | none => none
  | _, _ => none

/-- Modelled from the spec: the inverse of `base64Encode`. -/
def base64Decode : List Char → Option (List Nat)
  | [] => some []
  | [c1, c2, c3, c4] => decodeQuadLast c1 c2 c3 c4
  | c1 :: c2 :: c3 :: c4 :: r5 :: rest =>
      match b64Val c1, b64Val c2, b64Val c3, b64Val c4 with
      | some v1, some v2, some v3, some v4 =>
          match base64Decode (r5 :: rest) with
          | some tail =>
              some ((v1 * 4 + v2 / 16) :: (v2 % 16 * 16 + v3 / 4) :: (v3 % 4 * 64 + v4) :: tail)
          | none => none
      | _, _, _, _ => none
  | _ => none

/-- Characters left unescaped by JS `encodeURIComponent`:
`A-Z a-z 0-9 - _ . ! ~ * ' ( )`. -/
def isUriUnreserved (c : Char) : Bool :=
  decide (65 ≤ c.toNat ∧ c.toNat ≤ 90) || decide (97 ≤ c.toNat ∧ c.toNat ≤ 122) ||
  decide (48 ≤ c.toNat ∧ c.toNat ≤ 57) ||
  decide (c.toNat = 45) || decide (c.toNat = 95) || decide (c.toNat = 46) ||
  decide (c.toNat = 33) || decide (c.toNat = 126) || decide (c.toNat = 42) ||
  decide (c.toNat = 39) || decide (c.toNat = 40) || decide (c.toNat = 41)

/-- Upper-case hexadecimal digits. -/
def hexUpper : List Char := "0123456789ABCDEF".toList

/-- Hexadecimal digit of a 4-bit value. -/
def hexDigit (n : Nat) : Char := hexUpper.getD n '0'

/-- Percent-encoding of one character (byte-level model). -/
def percentEncodeChar (c : Char) : List Char :=
  if isUriUnreserved c then [c]
  else ['%', hexDigit (c.toNat / 16 % 16), hexDigit (c.toNat % 16)]

/-- Modelled from the spec: JS `encodeURIComponent` over the characters of
a string (exact for 8-bit content). -/
def percentEncode (l : List Char) : List Char := l.flatMap percentEncodeChar

/-- Value of an upper-case hexadecimal digit. -/
def hexVal (c : Char) : Option Nat := hexUpper.findIdx? (fun x => x == c)

/-- Read one escaped byte after a `%`: two hex digits, returning the
decoded character and the remaining input. -/
def percentDecodeStep : List Char → Option (Char × List Char)
  | h1 :: h2 :: rest2 =>
      match hexVal h1, hexVal h2 with
      | some v1, some v2 => some (Char.ofNat (v1 * 16 + v2), rest2)
      | _, _ => none
  | _ => none

/-- Modelled from the spec: the inverse of `percentEncode`; `fuel` bounds
the number of decoded characters for structural recursion. -/
def percentDecodeGo : Nat → List Char → Option (List Char)
  | _, [] => some []
  | 0, _ :: _ => none
  | f + 1, c :: rest =>
      if c = '%' then
        match percentDecodeStep rest with
        | some p =>
            match percentDecodeGo f p.2 with
            | some tail => some (p.1 :: tail)
            | none => none
        | none => none
      else
        match percentDecodeGo f rest with
        | some tail => some (c :: tail)
        | none => none

/-- Percent-decoding of a character list. -/
def percentDecode (l : List Char) : Option (List Char) := percentDecodeGo l.length l

/-! ## String-level wrappers mirroring the `utility` collaborator -/

/-- Modelled from the spec: `utility.deflateString` — raw deflate of the
code units of a string. -/
def utilityDeflateString (s : String) : List Nat :=
  deflateRaw (s.toList.map Char.toNat)

/-- Modelled from the spec: `utility.base64Encode` as used on deflated
bytes, producing base64 text. -/
def utilityBase64Encode (bs : List Nat) : String :=
  String.mk (base64Encode bs)

/-- Modelled from the spec: JS `encodeURIComponent` on a string. -/
def encodeURIComponentModel (s : String) : String :=
  String.mk (percentEncode s.toList)

/-- Inverse pipeline, steps: percent-decode, base64-decode, inflate. -/
def decodeSamlRedirect (s : String) : Option String :=
  match percentDecode s.toList with
  | none => none
  | some u =>
      match base64Decode u with
      | none => none
      | some b =>
          match inflateRaw b with
          | none => none
          | some raw => some (String.mk (raw.map Char.ofNat))

/-! ## Wire names and small helpers from `urn` / `libsaml` -/

/-- Wire name of the SAML request payload parameter. -/
def wSamlRequest : String := "SAMLRequest"

/-- Wire name of the SAML response payload parameter. -/
def wSamlResponse : String := "SAMLResponse"

/-- `urn` wording value used as the logout-request message type. -/
def wLogoutRequest : String := "LogoutRequest"

/-- `urn` wording value used as the logout-response message type. -/
def wLogoutResponse : String := "LogoutResponse"

/-- Wire name of the relay-state parameter. -/
def wRelayState : String := "RelayState"

/-- Wire name of the signature-algorithm parameter. -/
def wSigAlg : String := "SigAlg"

/-- Wire name of the signature-value parameter. -/
def wSignatureName : String := "Signature"

/-- Redirect binding key (`wording.binding.redirect`). -/
def bindingRedirect : String := "redirect"

/-- Modelled from the spec (§4.1 step 4): `libsaml.getQueryParamByType` —
`AuthnRequest` and `LogoutRequest` use the request wire name, the logout
response uses the response wire name. -/
def getQueryParamByType (t : String) : String :=
  if t = wSamlRequest ∨ t = wLogoutRequest then wSamlRequest else wSamlResponse

/-- Modelled from the spec: query extraction of Node `url.parse` — the part
after the first `?` (fragment excluded), or none when there is no `?`. -/
def urlQueryModel (s : String) : Option String :=
  match (s.toList.takeWhile (fun c => c ≠ '#')).dropWhile (fun c => c ≠ '?') with
  | [] => none
  | _ :: qs => some (String.mk qs)

/-- `(url.parse(baseUrl).query || []).length === 0` of the source. -/
def noParamsOf (s : String) : Bool :=
  decide (((urlQueryModel s).getD "").length = 0)

/-- Helper of generating a URL param/value pair (source `pvPair`); the
optional `first` flag selects the query header `?`, anything else `&`. -/
def pvPair (param value : String) (first : Option Bool) : String :=
  (if first = some true then "?" else "&") ++ param ++ "=" ++ value

/-! ## Data model -/

/-- Result of building one protocol message (source `BindingContext`). -/
structure BindingContext where
  id : String
  context : String

/-- Read-only view of an entity's metadata (collaborator boundary):
endpoint lookups by binding, entity id and the authn-request signing flag. -/
structure MetadataView where
  getSingleSignOnService : String → String
  getSingleLogoutService : String → String
  getAssertionConsumerService : String → String
  getEntityID : String
  isAuthnRequestSigned : Bool

/-- Read-only view of an entity's operational settings (collaborator
boundary).  `generateID` holds the fresh identifier the generator returns
for the current call. -/
structure EntitySetting where
  loginRequestTemplate : Option String
  logoutRequestTemplate : Option String
  logoutResponseTemplate : Option String
  generateID : String
  requestSignatureAlgorithm : String
  privateKey : String
  privateKeyPass : String
  loginNameIDFormat : String
  logoutNameIDFormat : String
  allowCreate : String
  wantLogoutRequestSigned : Bool
  wantLogoutResponseSigned : Bool

/-- An entity as the builders see it: its metadata view (absent when the
caller failed to declare it) and its settings. -/
structure EntityBox where
  entityMeta : Option MetadataView
  entitySetting : EntitySetting

/-- The `{ idp, sp }` argument of the login-request builder. -/
structure IdpSpPair where
  idp : EntityBox
  sp : EntityBox

/-- The `{ init, target }` argument of the logout builders. -/
structure InitTargetPair where
  init : EntityBox
  target : EntityBox

/-- Caller-supplied session/user context for logout requests. -/
structure UserInfo where
  logoutNameID : String
  sessionIndex : String

/-- Identifier extracted from an original logout request. -/
structure LogoutRequestExtract where
  id : String

/-- Extraction result attached to an inbound request. -/
structure ExtractInfo where
  logoutrequest : Option LogoutRequestExtract

/-- Original request info handed to the logout-response builder. -/
structure RequestInfo where
  extract : Option ExtractInfo

/-- Config of the redirect query encoder (source `BuildRedirectConfig`). -/
structure BuildRedirectConfig where
  baseUrl : String
  type : String
  isSigned : Bool
  context : String
  entitySetting : EntitySetting
  relayState : Option String

/-! ## Redirect query encoder and signature attachment -/

/-- Refactored part of URL generation for login/logout request (source
`buildRedirectURL`).  `sign` is the signing collaborator
(`libsaml.constructMessageSignature`), taking the octet string, the
private key, the passphrase and the algorithm. -/
def buildRedirectURL (sign : String → String → String → String → String)
    (opts : BuildRedirectConfig) : String :=
  let noParams := noParamsOf opts.baseUrl
  let queryParam := getQueryParamByType opts.type
  let samlRequest :=
    encodeURIComponentModel (utilityBase64Encode (utilityDeflateString opts.context))
  let rs0 := opts.relayState.getD ""
  let relayState :=
    if rs0 ≠ "" then pvPair wRelayState (encodeURIComponentModel rs0) none else rs0
  if opts.isSigned then
    let sigAlg :=
      pvPair wSigAlg (encodeURIComponentModel opts.entitySetting.requestSignatureAlgorithm) none
    let octetString := samlRequest ++ sigAlg ++ relayState
    opts.baseUrl ++ pvPair queryParam octetString (some noParams) ++
      pvPair wSignatureName
        (encodeURIComponentModel
          (sign (queryParam ++ "=" ++ octetString) opts.entitySetting.privateKey
            opts.entitySetting.privateKeyPass opts.entitySetting.requestSignatureAlgorithm))
        none
  else
    opts.baseUrl ++ pvPair queryParam (samlRequest ++ relayState) (some noParams)

/-! ## Spec-side descriptions of the encoder output -/

/-- The encoded payload of a raw XML document: percent-encoding of the
base64 encoding of the raw deflate of the document, in that order. -/
def samlRequestOf (context : String) : String :=
  encodeURIComponentModel (utilityBase64Encode (utilityDeflateString context))

/-- The relay-state clause: present exactly when the relay state is
non-empty. -/
def relayClauseSpec (relayState : Option String) : String :=
  if relayState.getD "" ≠ ""
  then "&" ++ wRelayState ++ "=" ++ encodeURIComponentModel (relayState.getD "")
  else ""

/-- Payload, then `SigAlg`, then the optional `RelayState` clause. -/
def octetStringSpec (opts : BuildRedirectConfig) : String :=
  samlRequestOf opts.context ++ "&" ++ wSigAlg ++ "=" ++
    encodeURIComponentModel opts.entitySetting.requestSignatureAlgorithm ++
    relayClauseSpec opts.relayState

/-- The exact octet string handed to the signing collaborator. -/
def signingInputSpec (opts : BuildRedirectConfig) : String :=
  getQueryParamByType opts.type ++ "=" ++ octetStringSpec opts

/-- `pat` occurs as a contiguous substring of `s`. -/
def containsStr (s pat : String) : Prop := pat.toList <:+: s.toList

instance containsStrDecidable (s pat : String) : Decidable (containsStr s pat) :=
  List.decidableInfix pat.toList s.toList

/-! ## Namespace constants and template substitution -/

/-- Modelled from the spec: `urn` name-id format table (subset); unknown
keys have no entry, the builders fall back to the emailAddress format. -/
def nsFormatLookup (k : String) : Option String :=
  if k = "emailAddress" then some "urn:oasis:names:tc:SAML:1.1:nameid-format:emailAddress"
  else if k = "persistent" then some "urn:oasis:names:tc:SAML:2.0:nameid-format:persistent"
  else if k = "transient" then some "urn:oasis:names:tc:SAML:2.0:nameid-format:transient"
  else if k = "unspecified" then some "urn:oasis:names:tc:SAML:1.1:nameid-format:unspecified"
  else none

/-- The emailAddress name-id format (`namespace.format.emailAddress`). -/
def nsFormatEmailAddress : String := "urn:oasis:names:tc:SAML:1.1:nameid-format:emailAddress"

/-- The success status code (`namespace.statusCode.success`). -/
def nsStatusSuccess : String := "urn:oasis:names:tc:SAML:2.0:status:Success"

/-- Replace every occurrence of `pat` in `text` by `rep`; `fuel` bounds
the number of steps (the remaining text shrinks at every step). -/
def replaceAllGo : Nat → List Char → List Char → List Char → List Char
  | 0, _, _, text => text
  | f + 1, pat, rep, text =>
      match text with
      | [] => []
      | c :: rest =>
          if pat.isPrefixOf (c :: rest) then
            rep ++ replaceAllGo f pat rep (List.drop pat.length (c :: rest))
          else c :: replaceAllGo f pat rep rest

/-- Modelled from the spec: `libsaml.replaceTagsByValue` — replace each
named placeholder `{Key}` of the template by its supplied value. -/
def replaceTagsByValue (tmpl : String) (tags : List (String × String)) : String :=
  tags.foldl
    (fun acc kv =>
      String.mk (replaceAllGo acc.toList.length (("\x7b" ++ kv.1 ++ "\x7d").toList)
        kv.2.toList acc.toList))
    tmpl

/-- Modelled from the spec: default AuthnRequest template (opaque string
with named placeholders). -/
def defaultLoginRequestTemplate : String :=
  "<AuthnRequest ID=\x22\x7bID\x7d\x22 D=\x22\x7bDestination\x7d\x22/>"

/-- Modelled from the spec: default LogoutRequest template. -/
def defaultLogoutRequestTemplate : String :=
  "<LogoutRequest ID=\x22\x7bID\x7d\x22/>"

/-- Modelled from the spec: default LogoutResponse template. -/
def defaultLogoutResponseTemplate : String :=
  "<LogoutResponse ID=\x22\x7bID\x7d\x22 IRT=\x22\x7bInResponseTo\x7d\x22/>"

/-! ## Message context builders -/

/-- Placeholder values substituted into the default login-request
template. -/
def loginRequestTags (spSetting : EntitySetting) (spMeta : MetadataView)
    (now base id : String) : List (String × String) :=
  [("ID", id), ("Destination", base), ("Issuer", spMeta.getEntityID), ("IssueInstant", now),
   ("NameIDFormat", (nsFormatLookup spSetting.loginNameIDFormat).getD nsFormatEmailAddress),
   ("AssertionConsumerServiceURL", spMeta.getAssertionConsumerService bindingRedirect),
   ("EntityID", spMeta.getEntityID), ("AllowCreate", spSetting.allowCreate)]

/-- Placeholder values substituted into the default logout-request
template. -/
def logoutRequestTags (initSetting : EntitySetting) (initMeta : MetadataView)
    (user : UserInfo) (now base id : String) : List (String × String) :=
  [("ID", id), ("Destination", base), ("EntityID", initMeta.getEntityID),
   ("Issuer", initMeta.getEntityID), ("IssueInstant", now),
   ("NameIDFormat", (nsFormatLookup initSetting.logoutNameIDFormat).getD nsFormatEmailAddress),
   ("NameID", user.logoutNameID), ("SessionIndex", user.sessionIndex)]

/-- Placeholder values substituted into the default logout-response
template; `InResponseTo` is added only when the original request carries
an extracted logout-request identifier. -/
def logoutResponseTags (initMeta : MetadataView) (now base id : String)
    (requestInfo : Option RequestInfo) : List (String × String) :=
  [("ID", id), ("Destination", base), ("Issuer", initMeta.getEntityID),
   ("EntityID", initMeta.getEntityID), ("IssueInstant", now),
   ("StatusCode", nsStatusSuccess)] ++
  (match requestInfo with
   | some ri =>
       match ri.extract with
       | some ex =>
           match ex.logoutrequest with
           | some lr => [("InResponseTo", lr.id)]
           | none => []
       | none => []
   | none => [])

/-- The logout-request identifier carried by the original request info,
when available. -/
def extractLogoutRequestId (requestInfo : Option RequestInfo) : Option String :=
  match requestInfo with
  | some ri =>
      match ri.extract with
      | some ex =>
          match ex.logoutrequest with
          | some lr => some lr.id
          | none => none
      | none => none
  | none => none

/-- Redirect URL for a login request (source `loginRequestRedirectURL`).
`sign` is the signing collaborator and `now` the current UTC ISO-8601
instant. -/
def loginRequestRedirectURL (sign : String → String → String → String → String)
    (now : String) (entity : IdpSpPair)
    (customTagReplacement : String → BindingContext) : Except String BindingContext :=
  match entity.idp.entityMeta, entity.sp.entityMeta with
  | some idpMeta, some spMeta =>
      let spSetting := entity.sp.entitySetting
      let base := idpMeta.getSingleSignOnService bindingRedirect
      let idctx : String × String :=
        match spSetting.loginRequestTemplate with
        | some tmpl =>
            let info := customTagReplacement tmpl
            (info.id, info.context)
        | none =>
            let id := spSetting.generateID
            (id, replaceTagsByValue defaultLoginRequestTemplate
                   (loginRequestTags spSetting spMeta now base id))
      Except.ok
        ⟨idctx.1,
         buildRedirectURL sign
           ⟨base, wSamlRequest, spMeta.isAuthnRequestSigned, idctx.2, spSetting, none⟩⟩
  | _, _ => Except.error "Missing declaration of metadata"

/-- Redirect URL for a logout request (source `logoutRequestRedirectURL`). -/
def logoutRequestRedirectURL (sign : String → String → String → String → String)
    (now : String) (user : UserInfo) (entity : InitTargetPair)
    (relayState : Option String)
    (customTagReplacement : String → BindingContext) : Except String BindingContext :=
  match entity.init.entityMeta, entity.target.entityMeta with
  | some initMeta, some targetMeta =>
      let initSetting := entity.init.entitySetting
      let base := targetMeta.getSingleLogoutService bindingRedirect
      let idctx : String × String :=
        match initSetting.logoutRequestTemplate with
        | some tmpl =>
            let info := customTagReplacement tmpl
            (info.id, info.context)
        | none =>
            let id := initSetting.generateID
            (id, replaceTagsByValue defaultLogoutRequestTemplate
                   (logoutRequestTags initSetting initMeta user now base id))
      Except.ok
        ⟨idctx.1,
         buildRedirectURL sign
           ⟨base, wLogoutRequest, entity.target.entitySetting.wantLogoutRequestSigned,
            idctx.2, initSetting, relayState⟩⟩
  | _, _ => Except.error "Missing declaration of metadata"

/-- Redirect URL for a logout response (source `logoutResponseRedirectURL`). -/
def logoutResponseRedirectURL (sign : String → String → String → String → String)
    (now : String) (requestInfo : Option RequestInfo) (entity : InitTargetPair)
    (relayState : Option String)
    (customTagReplacement : String → BindingContext) : Except String BindingContext :=
  match entity.init.entityMeta, entity.target.entityMeta with
  | some initMeta, some targetMeta =>
      let initSetting := entity.init.entitySetting
      let base := targetMeta.getSingleLogoutService bindingRedirect
      let idctx : String × String :=
        match initSetting.logoutResponseTemplate with
        | some tmpl =>
            let info := customTagReplacement tmpl
            (info.id, info.context)
        | none =>
            let id := initSetting.generateID
            (id, replaceTagsByValue defaultLogoutResponseTemplate
                   (logoutResponseTags initMeta now base id requestInfo))
      Except.ok
        ⟨idctx.1,
         buildRedirectURL sign
           ⟨base, wLogoutResponse, entity.target.entitySetting.wantLogoutResponseSigned,
            idctx.2, initSetting, relayState⟩⟩
  | _, _ => Except.error "Missing declaration of metadata"

/-- The URL carried by a successful builder result (empty on failure). -/
def contextOfResult : Except String BindingContext → String
  | Except.ok c => c.context
  | Except.error _ => ""

/-! ## Concrete fixtures used by witnesses and counterexamples -/

/-- A concrete signing collaborator for witnesses. -/
def cSign : String → String → String → String → String := fun _ _ _ _ => "SGN"

/-- Concrete entity settings using the default templates. -/
def cSetting : EntitySetting :=
  ⟨none, none, none, "_gid", "rsa-sha256", "KEY", "PW", "emailAddress", "emailAddress",
   "true", true, true⟩

/-- Concrete identity-provider metadata view. -/
def cIdpMeta : MetadataView :=
  ⟨fun _ => "https://idp/sso", fun _ => "https://idp/slo", fun _ => "https://sp/acs",
   "urn:idp", true⟩

/-- Concrete service-provider metadata view (authn requests signed). -/
def cSpMeta : MetadataView :=
  ⟨fun _ => "https://sp/sso", fun _ => "https://sp/slo", fun _ => "https://sp/acs",
   "urn:sp", true⟩

/-- Concrete service-provider metadata view (authn requests unsigned). -/
def cSpMetaU : MetadataView :=
  ⟨fun _ => "https://sp/sso", fun _ => "https://sp/slo", fun _ => "https://sp/acs",
   "urn:sp", false⟩

/-- Concrete logout target metadata view. -/
def cTargetMeta : MetadataView :=
  ⟨fun _ => "https://t/sso", fun _ => "https://t/slo", fun _ => "https://t/acs",
   "urn:t", false⟩

/-- Concrete idp/sp pair with both metadata views present. -/
def cEntityLogin : IdpSpPair := ⟨⟨some cIdpMeta, cSetting⟩, ⟨some cSpMeta, cSetting⟩⟩

/-- Concrete idp/sp pair whose idp metadata is missing. -/
def cEntityLoginNoMeta : IdpSpPair := ⟨⟨none, cSetting⟩, ⟨some cSpMeta, cSetting⟩⟩

/-- Concrete init/target pair with both metadata views present. -/
def cEntityLogout : InitTargetPair := ⟨⟨some cIdpMeta, cSetting⟩, ⟨some cTargetMeta, cSetting⟩⟩

/-- Concrete init/target pair whose target metadata is missing. -/
def cEntityLogoutNoMeta : InitTargetPair := ⟨⟨some cIdpMeta, cSetting⟩, ⟨none, cSetting⟩⟩

/-- Concrete logged-in user context. -/
def cUser : UserInfo := ⟨"user@example", "s1"⟩

/-- Concrete custom tag-replacement collaborator. -/
def cCTR : String → BindingContext := fun _ => ⟨"tid", "tctx"⟩

/-- Concrete original-request info carrying an extracted identifier. -/
def cRequestInfo : Option RequestInfo := some ⟨some ⟨some ⟨"_abc123"⟩⟩⟩

/-- The raw logout-request XML the logout-request builder produces for the
concrete fixtures. -/
def cRaw2 : String :=
  replaceTagsByValue defaultLogoutRequestTemplate
    (logoutRequestTags cSetting cIdpMeta cUser "T0" "https://t/slo" "_gid")

/-- The URL of the concrete signed logout request with relay state
`deeplink123`. -/
def cURL2 : String :=
  contextOfResult
    (logoutRequestRedirectURL cSign "T0" cUser cEntityLogout (some "deeplink123") cCTR)

/-- Concrete encoder config: signed, with relay state. -/
def cOpts1 : BuildRedirectConfig :=
  ⟨"https://idp/sso", wSamlRequest, true, "<x/>", cSetting, some "rs"⟩

/-- Concrete encoder config: unsigned, base URL with an existing query. -/
def cOptsQ : BuildRedirectConfig :=
  ⟨"https://idp/sso?a=1", wSamlRequest, false, "<x/>", cSetting, none⟩

/-- Concrete encoder config: unsigned, empty relay state. -/
def cOptsE : BuildRedirectConfig :=
  ⟨"https://idp/sso", wSamlRequest, false, "<x/>", cSetting, some ""⟩

/-! ## Round-trip facts for the deflate model -/

theorem length_le_deflateGo (f : Nat) : ∀ bs : List Nat, bs.length ≤ (deflateGo f bs).length := by
  induction f with
  | zero =>
      intro bs
      simp [deflateGo]
      omega
  | succ f ih =>
      intro bs
      by_cases h : bs.length ≤ 65535
      · simp [deflateGo, h]
        omega
      · have hd := ih (bs.drop 65535)
        simp only [deflateGo, if_neg h, List.length_cons, List.length_append,
          List.length_take, List.length_drop] at hd ⊢
        omega

theorem inflateGo_deflateGo :
    ∀ (f1 : Nat) (bs : List Nat) (f2 : Nat), bs.length ≤ 65535 * f1 + 65535 → f1 ≤ f2 →
      inflateGo f2 (deflateGo f1 bs) = some bs := by
  intro f1
  induction f1 with
  | zero =>
      intro bs f2 hlen _
      simp only [Nat.mul_zero, Nat.zero_add] at hlen
      simp only [deflateGo, inflateGo]
      rw [if_pos]
      constructor
      · omega
      · omega
  | succ f ih =>
      intro bs f2 hlen hf
      by_cases h : bs.length ≤ 65535
      · simp only [deflateGo, if_pos h, inflateGo]
        rw [if_pos]
        constructor
        · omega
        · omega
      · cases f2 with
        | zero => exact absurd hf (by omega)
        | succ f2 =>
          have htk : (bs.take 65535).length = 65535 := by
            simp [List.length_take]
            omega
          simp only [deflateGo, if_neg h, inflateGo]
          have hrest :
              ((bs.take 65535 ++ deflateGo f (bs.drop 65535)) : List Nat).length =
                65535 + (deflateGo f (bs.drop 65535)).length := by
            simp [List.length_append, htk]
          rw [if_pos]
          · rw [List.drop_left' htk, List.take_left' htk]
            rw [ih (bs.drop 65535) f2 (by simp [List.length_drop]; omega) (by omega)]
            simp [List.take_append_drop]
          · constructor
            · trivial
            · rw [hrest]; omega

theorem inflateRaw_deflateRaw (bs : List Nat) : inflateRaw (deflateRaw bs) = some bs := by
  have h := inflateGo_deflateGo bs.length bs (deflateGo bs.length bs).length
    (by omega) (length_le_deflateGo bs.length bs)
  simpa [inflateRaw, deflateRaw] using h

theorem deflateGo_mem_lt (f : Nat) :
    ∀ bs : List Nat, (∀ b ∈ bs, b < 256) → ∀ b ∈ deflateGo f bs, b < 256 := by
  induction f with
  | zero =>
      intro bs hbs b hb
      simp only [deflateGo, List.mem_cons] at hb
      rcases hb with h | h | h | h | h | h
      · omega
      · omega
      · omega
      · omega
      · omega
      · exact hbs b h
  | succ f ih =>
      intro bs hbs b hb
      by_cases h : bs.length ≤ 65535
      · simp only [deflateGo, if_pos h, List.mem_cons] at hb
        rcases hb with h1 | h1 | h1 | h1 | h1 | h1
        · omega
        · omega
        · omega
        · omega
        · omega
        · exact hbs b h1
      · simp only [deflateGo, if_neg h, List.mem_cons, List.mem_append] at hb
        rcases hb with h1 | h1 | h1 | h1 | h1 | h1 | h1
        · omega
        · omega
        · omega
        · omega
        · omega
        · exact hbs b (List.take_subset 65535 bs h1)
        · exact ih (bs.drop 65535) (fun x hx => hbs x (List.drop_subset 65535 bs hx)) b h1

/-! ## Round-trip facts for the base64 model -/

theorem b64Val_b64Char (n : Nat) (h : n < 64) : b64Val (b64Char n) = some n := by
  have hball : ∀ m < 64, b64Val (b64Char m) = some m := by decide
  exact hball n h

theorem b64Char_ne_pad (n : Nat) (h : n < 64) : b64Char n ≠ '=' := by
  have hball : ∀ m < 64, b64Char m ≠ '=' := by decide
  exact hball n h

theorem b64Char_toNat_lt (n : Nat) : (b64Char n).toNat < 128 := by
  by_cases h : n < 64
  · have hball : ∀ m < 64, (b64Char m).toNat < 128 := by decide
    exact hball n h
  · have hlen : b64Alphabet.length ≤ n := by
      have : b64Alphabet.length = 64 := by decide
      omega
    have hA : b64Char n = 'A' := by
      simp only [b64Char]
      exact List.getD_eq_default _ _ hlen
    rw [hA]
    decide

theorem base64Encode_head (x : Nat) (rs : List Nat) :
    ∃ d ds, base64Encode (x :: rs) = d :: ds := by
  match rs with
  | [] => exact ⟨_, _, rfl⟩
  | [y] => exact ⟨_, _, rfl⟩
  | y :: z :: zs => exact ⟨_, _, rfl⟩

theorem base64Decode_base64Encode :
    ∀ (n : Nat) (bs : List Nat), bs.length ≤ 3 * n → (∀ b ∈ bs, b < 256) →
      base64Decode (base64Encode bs) = some bs := by
  intro n
  induction n with
  | zero =>
      intro bs hlen _
      have : bs = [] := List.eq_nil_of_length_eq_zero (by omega)
      subst this
      rfl
  | succ n ih =>
      intro bs hlen hmem
      match bs with
      | [] => rfl
      | [a] =>
          have ha : a < 256 := hmem a (by simp)
          simp only [base64Encode, base64Decode, decodeQuadLast,
            b64Val_b64Char (a / 4) (by omega), b64Val_b64Char (a % 4 * 16) (by omega)]
          simp only [if_true]
          simp only [Option.some.injEq, List.cons.injEq, and_true]
          omega
      | [a, b] =>
          have ha : a < 256 := hmem a (by simp)
          have hb : b < 256 := hmem b (by simp)
          simp only [base64Encode, base64Decode, decodeQuadLast,
            b64Val_b64Char (a / 4) (by omega),
            b64Val_b64Char (a % 4 * 16 + b / 16) (by omega),
            b64Val_b64Char (b % 16 * 4) (by omega)]
          rw [if_neg (b64Char_ne_pad (b % 16 * 4) (by omega))]
          simp only [if_true]
          simp only [Option.some.injEq, List.cons.injEq, and_true]
          constructor
          · omega
          · omega
      | a :: b :: c :: rest =>
          have ha : a < 256 := hmem a (by simp)
          have hb : b < 256 := hmem b (by simp)
          have hc : c < 256 := hmem c (by simp)
          match rest with
          | [] =>
              simp only [base64Encode, base64Decode, decodeQuadLast,
                b64Val_b64Char (a / 4) (by omega),
                b64Val_b64Char (a % 4 * 16 + b / 16) (by omega),
                b64Val_b64Char (b % 16 * 4 + c / 64) (by omega),
                b64Val_b64Char (c % 64) (by omega)]
              rw [if_neg (b64Char_ne_pad (b % 16 * 4 + c / 64) (by omega)),
                if_neg (b64Char_ne_pad (c % 64) (by omega))]
              simp only [Option.some.injEq, List.cons.injEq, and_true]
              refine ⟨by omega, by omega, by omega⟩
          | r :: rs =>
              obtain ⟨d, ds, hd⟩ := base64Encode_head r rs
              have hrec : base64Decode (base64Encode (r :: rs)) = some (r :: rs) := by
                apply ih
                · have := hlen
                  simp only [List.length_cons] at this ⊢
                  omega
                · intro x hx
                  exact hmem x (List.mem_cons_of_mem _ (List.mem_cons_of_mem _
                    (List.mem_cons_of_mem _ hx)))
              simp only [base64Encode, hd, base64Decode,
                b64Val_b64Char (a / 4) (by omega),
                b64Val_b64Char (a % 4 * 16 + b / 16) (by omega),
                b64Val_b64Char (b % 16 * 4 + c / 64) (by omega),
                b64Val_b64Char (c % 64) (by omega)]
              rw [← hd, hrec]
              simp only [Option.some.injEq, List.cons.injEq, and_true]
              refine ⟨by omega, by omega, by omega⟩

theorem base64Encode_toNat_lt :
    ∀ (n : Nat) (bs : List Nat), bs.length ≤ 3 * n →
      ∀ c ∈ base64Encode bs, c.toNat < 128 := by
  intro n
  induction n with
  | zero =>
      intro bs hlen c hcm
      have : bs = [] := List.eq_nil_of_length_eq_zero (by omega)
      subst this
      simp [base64Encode] at hcm
  | succ n ih =>
      intro bs hlen c hcm
      match bs with
      | [] => simp [base64Encode] at hcm
      | [a] =>
          simp only [base64Encode, List.mem_cons, List.not_mem_nil, or_false] at hcm
          rcases hcm with h | h | h | h <;> subst h
          · exact b64Char_toNat_lt _
          · exact b64Char_toNat_lt _
          · decide
          · decide
      | [a, b] =>
          simp only [base64Encode, List.mem_cons, List.not_mem_nil, or_false] at hcm
          rcases hcm with h | h | h | h <;> subst h
          · exact b64Char_toNat_lt _
          · exact b64Char_toNat_lt _
          · exact b64Char_toNat_lt _
          · decide
      | a :: b :: d :: rest =>
          simp only [base64Encode, List.mem_cons] at hcm
          rcases hcm with h | h | h | h | h
          · subst h; exact b64Char_toNat_lt _
          · subst h; exact b64Char_toNat_lt _
          · subst h; exact b64Char_toNat_lt _
          · subst h; exact b64Char_toNat_lt _
          · refine ih rest ?_ c h
            simp only [List.length_cons] at hlen
            omega

/-! ## Round-trip facts for the percent-encoding model -/

theorem hexVal_hexDigit (n : Nat) (h : n < 16) : hexVal (hexDigit n) = some n := by
  have hball : ∀ m < 16, hexVal (hexDigit m) = some m := by decide
  exact hball n h

theorem uriUnreserved_ne_percent (c : Char) (h : isUriUnreserved c = true) : ¬ c = '%' := by
  intro heq
  subst heq
  exact absurd h (by decide)

theorem percentDecodeGo_percentEncode :
    ∀ (l : List Char) (f : Nat), l.length ≤ f → (∀ c ∈ l, c.toNat < 256) →
      percentDecodeGo f (percentEncode l) = some l := by
  intro l
  induction l with
  | nil =>
      intro f _ _
      simp [percentEncode, percentDecodeGo]
  | cons c l ih =>
      intro f hf hmem
      have hc : c.toNat < 256 := hmem c (by simp)
      cases f with
      | zero => simp at hf
      | succ f =>
          have htail : percentDecodeGo f (percentEncode l) = some l :=
            ih f (by simp at hf; omega) (fun x hx => hmem x (by simp [hx]))
          by_cases hu : isUriUnreserved c
          · have henc : percentEncode (c :: l) = c :: percentEncode l := by
              simp [percentEncode, percentEncodeChar, if_pos hu]
            rw [henc, percentDecodeGo, if_neg (uriUnreserved_ne_percent c hu), htail]
          · have henc : percentEncode (c :: l) =
                '%' :: hexDigit (c.toNat / 16 % 16) :: hexDigit (c.toNat % 16) ::
                  percentEncode l := by
              simp [percentEncode, percentEncodeChar, if_neg hu]
            rw [henc, percentDecodeGo, if_pos rfl]
            simp only [percentDecodeStep,
              hexVal_hexDigit (c.toNat / 16 % 16) (by omega),
              hexVal_hexDigit (c.toNat % 16) (by omega), htail]
            have harg : c.toNat / 16 % 16 * 16 + c.toNat % 16 = c.toNat := by omega
            rw [harg, Char.ofNat_toNat]

theorem length_le_percentEncode (l : List Char) : l.length ≤ (percentEncode l).length := by
  induction l with
  | nil => simp [percentEncode]
  | cons c l ih =>
      have : percentEncode (c :: l) = percentEncodeChar c ++ percentEncode l := by
        simp [percentEncode]
      rw [this, List.length_append]
      have hchunk : 1 ≤ (percentEncodeChar c).length := by
        rw [percentEncodeChar]
        by_cases hu : isUriUnreserved c
        · rw [if_pos hu]; simp
        · rw [if_neg hu]; simp
      simp only [List.length_cons]
      omega

theorem percentDecode_percentEncode (l : List Char) (hmem : ∀ c ∈ l, c.toNat < 256) :
    percentDecode (percentEncode l) = some l :=
  percentDecodeGo_percentEncode l (percentEncode l).length (length_le_percentEncode l) hmem

theorem hexDigit_mem_hexUpper (n : Nat) : hexDigit n ∈ hexUpper := by
  by_cases h : n < 16
  · have hball : ∀ m < 16, hexDigit m ∈ hexUpper := by decide
    exact hball n h
  · have hlen : hexUpper.length ≤ n := by
      have : hexUpper.length = 16 := by decide
      omega
    have h0 : hexDigit n = '0' := by
      simp only [hexDigit]
      exact List.getD_eq_default _ _ hlen
    rw [h0]
    decide

theorem mem_percentEncode {c : Char} {l : List Char} (h : c ∈ percentEncode l) :
    isUriUnreserved c = true ∨ c = '%' ∨ c ∈ hexUpper := by
  rw [percentEncode, List.mem_flatMap] at h
  obtain ⟨a, _, hca⟩ := h
  by_cases hu : isUriUnreserved a
  · rw [percentEncodeChar, if_pos hu] at hca
    simp only [List.mem_singleton] at hca
    subst hca
    exact Or.inl hu
  · rw [percentEncodeChar, if_neg hu] at hca
    simp only [List.mem_cons, List.not_mem_nil, or_false] at hca
    rcases hca with h1 | h1 | h1
    · exact Or.inr (Or.inl h1)
    · subst h1; exact Or.inr (Or.inr (hexDigit_mem_hexUpper _))
    · subst h1; exact Or.inr (Or.inr (hexDigit_mem_hexUpper _))

theorem eq_not_mem_percentEncode (l : List Char) : ('=' : Char) ∉ percentEncode l := by
  intro h
  rcases mem_percentEncode h with h1 | h1 | h1
  · exact absurd h1 (by decide)
  · exact absurd h1 (by decide)
  · exact absurd h1 (by decide)

theorem amp_not_mem_percentEncode (l : List Char) : ('&' : Char) ∉ percentEncode l := by
  intro h
  rcases mem_percentEncode h with h1 | h1 | h1
  · exact absurd h1 (by decide)
  · exact absurd h1 (by decide)
  · exact absurd h1 (by decide)

theorem qm_not_mem_percentEncode (l : List Char) : ('?' : Char) ∉ percentEncode l := by
  intro h
  rcases mem_percentEncode h with h1 | h1 | h1
  · exact absurd h1 (by decide)
  · exact absurd h1 (by decide)
  · exact absurd h1 (by decide)

theorem toList_mk (l : List Char) : (String.mk l).toList = l := rfl

theorem mk_toList (s : String) : String.mk s.toList = s := rfl

theorem decodeSamlRedirect_encodes (x : String) (hx : ∀ c ∈ x.toList, c.toNat < 256) :
    decodeSamlRedirect (encodeURIComponentModel (utilityBase64Encode (utilityDeflateString x)))
      = some x := by
  have hbytes : ∀ b ∈ utilityDeflateString x, b < 256 := by
    intro b hb
    refine deflateGo_mem_lt _ _ ?_ b hb
    intro v hv
    simp only [List.mem_map] at hv
    obtain ⟨c, hc, rfl⟩ := hv
    exact hx c hc
  have hchars : ∀ c ∈ base64Encode (utilityDeflateString x), c.toNat < 256 := by
    intro c hc
    have h := base64Encode_toNat_lt (utilityDeflateString x).length
      (utilityDeflateString x) (by omega) c hc
    omega
  have h1 : percentDecode (percentEncode (base64Encode (utilityDeflateString x))) =
      some (base64Encode (utilityDeflateString x)) := percentDecode_percentEncode _ hchars
  have h2 : base64Decode (base64Encode (utilityDeflateString x)) =
      some (utilityDeflateString x) :=
    base64Decode_base64Encode (utilityDeflateString x).length _ (by omega) hbytes
  have h3 : inflateRaw (utilityDeflateString x) = some (x.toList.map Char.toNat) :=
    inflateRaw_deflateRaw (x.toList.map Char.toNat)
  simp only [decodeSamlRedirect, encodeURIComponentModel, utilityBase64Encode,
    toList_mk, h1, h2, h3]
  simp only [List.map_map]
  have hmap : x.toList.map (Char.ofNat ∘ Char.toNat) = x.toList := by
    simp only [Function.comp_def, Char.ofNat_toNat, List.map_id']
  rw [hmap, mk_toList]

/-! ## Substring (infix) machinery for query strings -/

theorem infix_of_decomp {α : Type} {w l s t : List α} (h : l = s ++ w ++ t) : w <:+: l :=
  ⟨s, t, h.symm⟩

theorem key_infix_cases {α : Type} {w p q : List α} {e : α}
    (hw : e ∉ w) (hp : e ∉ p) (h : (w ++ [e]) <:+: (p ++ e :: q)) :
    w <:+ p ∨ (w ++ [e]) <:+: q := by
  obtain ⟨s, t, hst⟩ := h
  have hst2 : (s ++ w) ++ e :: t = p ++ e :: q := by
    simpa [List.append_assoc] using hst
  rcases List.append_eq_append_iff.mp hst2 with ⟨a, ha1, ha2⟩ | ⟨c, hc1, hc2⟩
  · cases a with
    | nil =>
        left
        exact ⟨s, by simpa using ha1.symm⟩
    | cons x a' =>
        exfalso
        simp only [List.cons_append] at ha2
        injection ha2 with h1 _
        apply hp
        rw [ha1, ← h1]
        exact List.mem_append_right _ (List.mem_cons_self e a')
  · cases c with
    | nil =>
        left
        exact ⟨s, by simpa using hc1⟩
    | cons x c' =>
        simp only [List.cons_append] at hc2
        injection hc2 with h1 h2
        subst h1
        have hc1' : s ++ w = (p ++ [e]) ++ c' := by simpa [List.append_assoc] using hc1
        rcases List.append_eq_append_iff.mp hc1' with ⟨a, ha1, ha2⟩ | ⟨s', hs1, hs2⟩
        · cases a with
          | nil =>
              right
              refine ⟨[], t, ?_⟩
              simp only [List.nil_append] at ha2 ⊢
              rw [h2, ← ha2]
              simp [List.append_assoc]
          | cons y a' =>
              exfalso
              rcases (y :: a').eq_nil_or_concat with hnil | ⟨L, b, hLb⟩
              · exact absurd hnil (by simp)
              · rw [hLb] at ha1 ha2
                simp only [List.concat_eq_append] at ha1 ha2
                have ha1' : p ++ [e] = (s ++ L) ++ [b] := by
                  simpa [List.append_assoc] using ha1
                have hb := (List.append_inj' ha1' rfl).2
                injection hb with hb1 _
                apply hw
                rw [ha2, ← hb1]
                exact List.mem_append_left _ (List.mem_append_right _ (by simp))
        · right
          refine ⟨s', t, ?_⟩
          rw [h2, hs2]
          simp [List.append_assoc]

theorem not_key_infix_of_not_mem {α : Type} {w q : List α} {e : α} (hq : e ∉ q) :
    ¬ (w ++ [e]) <:+: q := by
  intro h
  exact hq (h.subset (List.mem_append_right _ (by simp)))

theorem key_not_infix {α : Type} {w p q : List α} {e : α}
    (hw : e ∉ w) (hp : e ∉ p) (hns : ¬ w <:+ p) (hnq : ¬ (w ++ [e]) <:+: q) :
    ¬ (w ++ [e]) <:+: (p ++ e :: q) := fun h =>
  (key_infix_cases hw hp h).elim hns hnq

theorem infix_append_cases {α : Type} {w a b : List α} (h : w <:+: a ++ b) :
    w <:+: a ∨ w <:+: b ∨
      ∃ w1 w2, w = w1 ++ w2 ∧ w1 ≠ [] ∧ w2 ≠ [] ∧ w1 <:+ a ∧ w2 <+: b := by
  obtain ⟨s, t, hst⟩ := h
  have hst2 : s ++ (w ++ t) = a ++ b := by simpa [List.append_assoc] using hst
  rcases List.append_eq_append_iff.mp hst2 with ⟨c, hc1, hc2⟩ | ⟨c, hc1, hc2⟩
  · rcases List.append_eq_append_iff.mp hc2 with ⟨d, hd1, hd2⟩ | ⟨d, hd1, hd2⟩
    · left
      refine ⟨s, d, ?_⟩
      rw [hc1, hd1]
      simp [List.append_assoc]
    · by_cases hcnil : c = []
      · subst hcnil
        right; left
        refine ⟨[], t, ?_⟩
        simp only [List.nil_append] at hd1 ⊢
        rw [hd2, ← hd1]
      · by_cases hdnil : d = []
        · subst hdnil
          left
          refine ⟨s, [], ?_⟩
          rw [List.append_nil] at hd1
          rw [hc1, hd1]
          simp
        · right; right
          exact ⟨c, d, hd1, hcnil, hdnil, ⟨s, hc1.symm⟩, ⟨t, hd2.symm⟩⟩
  · right; left
    refine ⟨c, t, ?_⟩
    rw [hc2]
    simp [List.append_assoc]

theorem not_infix_append_cons {α : Type} {w a b : List α} {sep : α}
    (ha : ¬ w <:+: a) (hb : ¬ w <:+: (sep :: b)) (hsep : sep ∉ w.tail) :
    ¬ w <:+: (a ++ sep :: b) := by
  intro h
  rcases infix_append_cases h with h1 | h1 | ⟨w1, w2, hw, h1, h2, hsuf, hpre⟩
  · exact ha h1
  · exact hb h1
  · obtain ⟨t2, ht2⟩ := hpre
    cases w2 with
    | nil => exact h2 rfl
    | cons x w2' =>
        simp only [List.cons_append] at ht2
        injection ht2 with hx _
        subst hx
        cases w1 with
        | nil => exact h1 rfl
        | cons y w1' =>
            apply hsep
            rw [hw]
            simp

theorem suffix_of_suffix_le {α : Type} {l1 l2 l : List α} (h1 : l1 <:+ l) (h2 : l2 <:+ l)
    (hle : l1.length ≤ l2.length) : l1 <:+ l2 := by
  obtain ⟨s1, hs1⟩ := h1
  obtain ⟨s2, hs2⟩ := h2
  have heq : s1 ++ l1 = s2 ++ l2 := by rw [hs1, hs2]
  rcases List.append_eq_append_iff.mp heq with ⟨c, hc1, hc2⟩ | ⟨c, hc1, hc2⟩
  · have hcl : c = [] := by
      have hlen := congrArg List.length hc2
      simp only [List.length_append] at hlen
      have : c.length = 0 := by omega
      exact List.eq_nil_of_length_eq_zero this
    subst hcl
    simp only [List.nil_append] at hc2
    rw [hc2]
  · exact ⟨c, hc2.symm⟩

theorem not_suffix_append_seg {α : Type} {w pre seg : List α} (hlen : seg.length ≤ w.length)
    (hns : ¬ seg <:+ w) : ¬ w <:+ (pre ++ seg) := by
  intro h
  exact hns (suffix_of_suffix_le ⟨pre, rfl⟩ h hlen)

theorem not_suffix_cons_of {α : Type} {w k : List α} {c : α} (h1 : ¬ w <:+ k)
    (h2 : w.length ≠ k.length + 1) : ¬ w <:+ (c :: k) := by
  intro h
  rcases List.suffix_cons_iff.mp h with h3 | h3
  · exact h2 (by rw [h3]; simp)
  · exact h1 h3

/-! ## Characterizations of the encoder output -/

theorem relayState_let_eq (rs : Option String) :
    (if rs.getD "" ≠ "" then pvPair wRelayState (encodeURIComponentModel (rs.getD "")) none
     else rs.getD "") = relayClauseSpec rs := by
  by_cases hr : rs.getD "" = ""
  · simp [relayClauseSpec, hr]
  · simp [relayClauseSpec, hr, pvPair, wRelayState]

theorem build_signed_eq (sign : String → String → String → String → String)
    (opts : BuildRedirectConfig) (h : opts.isSigned = true) :
    buildRedirectURL sign opts =
      opts.baseUrl ++ (if noParamsOf opts.baseUrl then "?" else "&") ++
        signingInputSpec opts ++ "&" ++ wSignatureName ++ "=" ++
        encodeURIComponentModel
          (sign (signingInputSpec opts) opts.entitySetting.privateKey
            opts.entitySetting.privateKeyPass opts.entitySetting.requestSignatureAlgorithm) := by
  simp only [buildRedirectURL, h, if_true, pvPair, signingInputSpec, octetStringSpec,
    samlRequestOf, ← relayState_let_eq opts.relayState, wSigAlg]
  by_cases hnp : noParamsOf opts.baseUrl
  · simp [hnp, String.append_assoc]
  · simp [hnp, String.append_assoc]

theorem build_unsigned_eq (sign : String → String → String → String → String)
    (opts : BuildRedirectConfig) (h : opts.isSigned = false) :
    buildRedirectURL sign opts =
      opts.baseUrl ++ (if noParamsOf opts.baseUrl then "?" else "&") ++
        getQueryParamByType opts.type ++ "=" ++ samlRequestOf opts.context ++
        relayClauseSpec opts.relayState := by
  simp only [buildRedirectURL, h, if_false, Bool.false_eq_true, pvPair,
    samlRequestOf, ← relayState_let_eq opts.relayState]
  by_cases hnp : noParamsOf opts.baseUrl
  · simp [hnp, String.append_assoc]
  · simp [hnp, String.append_assoc]

/-! ## Character-set facts about the encoder output -/

theorem encModel_no_eq (s : String) : ('=' : Char) ∉ (encodeURIComponentModel s).toList := by
  simp only [encodeURIComponentModel, toList_mk]
  exact eq_not_mem_percentEncode _

theorem samlRequestOf_no_eq (ctx : String) : ('=' : Char) ∉ (samlRequestOf ctx).toList := by
  simp only [samlRequestOf, encodeURIComponentModel, toList_mk]
  exact eq_not_mem_percentEncode _

theorem getQueryParamByType_cases (t : String) :
    getQueryParamByType t = wSamlRequest ∨ getQueryParamByType t = wSamlResponse := by
  rw [getQueryParamByType]
  by_cases h : t = wSamlRequest ∨ t = wLogoutRequest
  · rw [if_pos h]; exact Or.inl rfl
  · rw [if_neg h]; exact Or.inr rfl

/-- The query header character actually prepended to the first parameter. -/
def sepChar (b : String) : Char := if noParamsOf b then '?' else '&'

theorem sep_toList (b : String) :
    (if noParamsOf b then "?" else "&").toList = [sepChar b] := by
  by_cases h : noParamsOf b <;> simp [sepChar, h]

theorem sep_data (b : String) :
    (if noParamsOf b then "?" else "&").data = [sepChar b] := sep_toList b

theorem sepChar_cases (b : String) : sepChar b = '?' ∨ sepChar b = '&' := by
  rw [sepChar]
  by_cases h : noParamsOf b
  · rw [if_pos h]; exact Or.inl rfl
  · rw [if_neg h]; exact Or.inr rfl

/-! ## Key-occurrence lemmas for query suffixes -/

theorem no_key_suffix_unsigned (w payload qpl : List Char) (sep : Char)
    (hw : ('=' : Char) ∉ w) (hpayload : ('=' : Char) ∉ payload)
    (hqp : ('=' : Char) ∉ qpl) (hsep : sep ≠ '=')
    (hwqp : ¬ w <:+ qpl) (hlenqp : w.length ≠ qpl.length + 1) :
    ¬ (w ++ ['=']) <:+: (sep :: qpl ++ '=' :: payload) := by
  apply key_not_infix hw (p := sep :: qpl)
  · intro hmem
    rcases List.mem_cons.mp hmem with h | h
    · exact hsep h.symm
    · exact hqp h
  · exact not_suffix_cons_of hwqp hlenqp
  · exact not_key_infix_of_not_mem hpayload

theorem no_key_suffix_signed (w payload alg sig qpl : List Char) (sep : Char)
    (hw : ('=' : Char) ∉ w) (hpayload : ('=' : Char) ∉ payload)
    (halg : ('=' : Char) ∉ alg) (hsig : ('=' : Char) ∉ sig)
    (hqp : ('=' : Char) ∉ qpl) (hsep : sep ≠ '=')
    (hwqp : ¬ w <:+ qpl) (hlenqp : w.length ≠ qpl.length + 1)
    (hsael : ('&' :: "SigAlg".toList).length ≤ w.length)
    (hsa : ¬ ('&' :: "SigAlg".toList) <:+ w)
    (hsgl : ('&' :: "Signature".toList).length ≤ w.length)
    (hsg : ¬ ('&' :: "Signature".toList) <:+ w) :
    ¬ (w ++ ['=']) <:+:
      (sep :: qpl ++ '=' ::
        (payload ++ '&' :: "SigAlg".toList ++ '=' ::
          (alg ++ '&' :: "Signature".toList ++ '=' :: sig))) := by
  apply key_not_infix hw (p := sep :: qpl)
  · intro hmem
    rcases List.mem_cons.mp hmem with h | h
    · exact hsep h.symm
    · exact hqp h
  · exact not_suffix_cons_of hwqp hlenqp
  · apply key_not_infix hw (p := payload ++ '&' :: "SigAlg".toList)
    · intro hmem
      rcases List.mem_append.mp hmem with h | h
      · exact hpayload h
      · exact absurd h (by decide)
    · exact not_suffix_append_seg hsael hsa
    · apply key_not_infix hw (p := alg ++ '&' :: "Signature".toList)
      · intro hmem
        rcases List.mem_append.mp hmem with h | h
        · exact halg h
        · exact absurd h (by decide)
      · exact not_suffix_append_seg hsgl hsg
      · exact not_key_infix_of_not_mem hsig

theorem no_key_in_signing_input (w payload alg qpl : List Char)
    (hw : ('=' : Char) ∉ w) (hpayload : ('=' : Char) ∉ payload)
    (halg : ('=' : Char) ∉ alg) (hqp : ('=' : Char) ∉ qpl)
    (hwqp : ¬ w <:+ qpl)
    (hsael : ('&' :: "SigAlg".toList).length ≤ w.length)
    (hsa : ¬ ('&' :: "SigAlg".toList) <:+ w) :
    ¬ (w ++ ['=']) <:+: (qpl ++ '=' :: (payload ++ '&' :: "SigAlg".toList ++ '=' :: alg)) := by
  apply key_not_infix hw hqp hwqp
  apply key_not_infix hw (p := payload ++ '&' :: "SigAlg".toList)
  · intro hmem
    rcases List.mem_append.mp hmem with h | h
    · exact hpayload h
    · exact absurd h (by decide)
  · exact not_suffix_append_seg hsael hsa
  · exact not_key_infix_of_not_mem halg

/-! ## List-level shapes of the produced URLs -/

theorem toList_eq_str : "=".toList = ['='] := rfl

theorem toList_amp_str : "&".toList = ['&'] := rfl

theorem url_unsigned_chars_norelay (sign : String → String → String → String → String)
    (opts : BuildRedirectConfig) (h : opts.isSigned = false)
    (hrc : relayClauseSpec opts.relayState = "") :
    (buildRedirectURL sign opts).toList =
      opts.baseUrl.toList ++ sepChar opts.baseUrl ::
        ((getQueryParamByType opts.type).toList ++ '=' ::
          (samlRequestOf opts.context).toList) := by
  rw [build_unsigned_eq sign opts h, hrc]
  simp [sep_data, List.append_assoc, String.append_assoc]

theorem url_signed_chars_norelay (sign : String → String → String → String → String)
    (opts : BuildRedirectConfig) (h : opts.isSigned = true)
    (hrc : relayClauseSpec opts.relayState = "") :
    (buildRedirectURL sign opts).toList =
      opts.baseUrl.toList ++ sepChar opts.baseUrl ::
        ((getQueryParamByType opts.type).toList ++ '=' ::
          ((samlRequestOf opts.context).toList ++ '&' :: "SigAlg".toList ++ '=' ::
            ((encodeURIComponentModel opts.entitySetting.requestSignatureAlgorithm).toList ++
              '&' :: "Signature".toList ++ '=' ::
              (encodeURIComponentModel
                (sign (signingInputSpec opts) opts.entitySetting.privateKey
                  opts.entitySetting.privateKeyPass
                  opts.entitySetting.requestSignatureAlgorithm)).toList))) := by
  rw [build_signed_eq sign opts h]
  simp only [signingInputSpec, octetStringSpec, hrc, wSigAlg, wSignatureName]
  simp [sep_data, List.append_assoc, String.append_assoc]

theorem signing_input_chars_norelay (opts : BuildRedirectConfig)
    (hrc : relayClauseSpec opts.relayState = "") :
    (signingInputSpec opts).toList =
      (getQueryParamByType opts.type).toList ++ '=' ::
        ((samlRequestOf opts.context).toList ++ '&' :: "SigAlg".toList ++ '=' ::
          (encodeURIComponentModel opts.entitySetting.requestSignatureAlgorithm).toList) := by
  simp only [signingInputSpec, octetStringSpec, hrc, wSigAlg]
  simp [List.append_assoc, String.append_assoc]

/-! ## RelayState omission -/

theorem no_relay_in_build (sign : String → String → String → String → String)
    (opts : BuildRedirectConfig)
    (hrs : opts.relayState = none ∨ opts.relayState = some "")
    (hb : ¬ containsStr opts.baseUrl (wRelayState ++ "=")) :
    ¬ containsStr (buildRedirectURL sign opts) (wRelayState ++ "=") ∧
    ¬ containsStr (signingInputSpec opts) (wRelayState ++ "=") := by
  have hrc : relayClauseSpec opts.relayState = "" := by
    rcases hrs with h | h <;> simp [relayClauseSpec, h]
  have hpat : (wRelayState ++ "=").toList = "RelayState".toList ++ ['='] := rfl
  have hqp := getQueryParamByType_cases opts.type
  have hsep := sepChar_cases opts.baseUrl
  rw [containsStr, hpat] at hb
  have hwqp : ¬ "RelayState".toList <:+ (getQueryParamByType opts.type).toList := by
    rcases hqp with h | h <;> rw [h] <;> decide
  have hqpne : ('=' : Char) ∉ (getQueryParamByType opts.type).toList := by
    rcases hqp with h | h <;> rw [h] <;> decide
  have hlenqp : ("RelayState".toList).length ≠ ((getQueryParamByType opts.type).toList).length + 1 := by
    rcases hqp with h | h <;> rw [h] <;> decide
  have hsepne : sepChar opts.baseUrl ≠ '=' := by
    rcases hsep with h | h <;> rw [h] <;> decide
  have hseptail : sepChar opts.baseUrl ∉ ("RelayState".toList ++ ['=']).tail := by
    rcases hsep with h | h <;> rw [h] <;> decide
  constructor
  · intro hcon
    rw [containsStr, hpat] at hcon
    cases hsgn : opts.isSigned with
    | false =>
        rw [url_unsigned_chars_norelay sign opts hsgn hrc] at hcon
        refine not_infix_append_cons hb ?_ hseptail hcon
        exact no_key_suffix_unsigned _ _ _ _ (by decide) (samlRequestOf_no_eq _)
          hqpne hsepne hwqp hlenqp
    | true =>
        rw [url_signed_chars_norelay sign opts hsgn hrc] at hcon
        refine not_infix_append_cons hb ?_ hseptail hcon
        exact no_key_suffix_signed _ _ _ _ _ _ (by decide) (samlRequestOf_no_eq _)
          (encModel_no_eq _) (encModel_no_eq _) hqpne hsepne hwqp hlenqp
          (by decide) (by decide) (by decide) (by decide)
  · intro hcon
    rw [containsStr, hpat, signing_input_chars_norelay opts hrc] at hcon
    exact no_key_in_signing_input _ _ _ _ (by decide) (samlRequestOf_no_eq _)
      (encModel_no_eq _) hqpne hwqp (by decide) (by decide) hcon

/-! ## SigAlg / Signature presence -/

theorem sigalg_in_signed_url (sign : String → String → String → String → String)
    (opts : BuildRedirectConfig) (h : opts.isSigned = true)
    (hrc : relayClauseSpec opts.relayState = "") :
    containsStr (buildRedirectURL sign opts) (wSigAlg ++ "=") := by
  rw [containsStr, show (wSigAlg ++ "=").toList = "SigAlg".toList ++ ['='] from rfl,
    url_signed_chars_norelay sign opts h hrc]
  refine infix_of_decomp
    (s := opts.baseUrl.toList ++ sepChar opts.baseUrl ::
      ((getQueryParamByType opts.type).toList ++ '=' ::
        ((samlRequestOf opts.context).toList ++ ['&'])))
    (t := (encodeURIComponentModel opts.entitySetting.requestSignatureAlgorithm).toList ++
      '&' :: "Signature".toList ++ '=' ::
      (encodeURIComponentModel
        (sign (signingInputSpec opts) opts.entitySetting.privateKey
          opts.entitySetting.privateKeyPass
          opts.entitySetting.requestSignatureAlgorithm)).toList) ?_
  simp [List.append_assoc]

theorem signature_in_signed_url (sign : String → String → String → String → String)
    (opts : BuildRedirectConfig) (h : opts.isSigned = true)
    (hrc : relayClauseSpec opts.relayState = "") :
    containsStr (buildRedirectURL sign opts) (wSignatureName ++ "=") := by
  rw [containsStr, show (wSignatureName ++ "=").toList = "Signature".toList ++ ['='] from rfl,
    url_signed_chars_norelay sign opts h hrc]
  refine infix_of_decomp
    (s := opts.baseUrl.toList ++ sepChar opts.baseUrl ::
      ((getQueryParamByType opts.type).toList ++ '=' ::
        ((samlRequestOf opts.context).toList ++ '&' :: "SigAlg".toList ++ '=' ::
          ((encodeURIComponentModel opts.entitySetting.requestSignatureAlgorithm).toList ++
            ['&']))))
    (t := (encodeURIComponentModel
      (sign (signingInputSpec opts) opts.entitySetting.privateKey
        opts.entitySetting.privateKeyPass
        opts.entitySetting.requestSignatureAlgorithm)).toList) ?_
  simp [List.append_assoc]

theorem no_key_in_unsigned_url (sign : String → String → String → String → String)
    (opts : BuildRedirectConfig) (w : List Char) (h : opts.isSigned = false)
    (hrc : relayClauseSpec opts.relayState = "")
    (hb : ¬ (w ++ ['=']) <:+: opts.baseUrl.toList)
    (hw : ('=' : Char) ∉ w)
    (hwqp : ¬ w <:+ (getQueryParamByType opts.type).toList)
    (hlen : w.length ≠ ((getQueryParamByType opts.type).toList).length + 1)
    (hq : ('?' : Char) ∉ (w ++ ['=']).tail) (ha : ('&' : Char) ∉ (w ++ ['=']).tail) :
    ¬ (w ++ ['=']) <:+: (buildRedirectURL sign opts).toList := by
  intro hcon
  have hqp := getQueryParamByType_cases opts.type
  have hqpne : ('=' : Char) ∉ (getQueryParamByType opts.type).toList := by
    rcases hqp with h' | h' <;> rw [h'] <;> decide
  have hsepne : sepChar opts.baseUrl ≠ '=' := by
    rcases sepChar_cases opts.baseUrl with h' | h' <;> rw [h'] <;> decide
  have hseptail : sepChar opts.baseUrl ∉ (w ++ ['=']).tail := by
    rcases sepChar_cases opts.baseUrl with h' | h' <;> rw [h'] <;> assumption
  rw [url_unsigned_chars_norelay sign opts h hrc] at hcon
  refine not_infix_append_cons hb ?_ hseptail hcon
  exact no_key_suffix_unsigned _ _ _ _ hw (samlRequestOf_no_eq _) hqpne hsepne hwqp hlen

theorem build_sig_iff (sign : String → String → String → String → String)
    (opts : BuildRedirectConfig)
    (hrc : relayClauseSpec opts.relayState = "")
    (hb1 : ¬ containsStr opts.baseUrl (wSigAlg ++ "="))
    (hb2 : ¬ containsStr opts.baseUrl (wSignatureName ++ "=")) :
    (containsStr (buildRedirectURL sign opts) (wSigAlg ++ "=") ∧
      containsStr (buildRedirectURL sign opts) (wSignatureName ++ "=")) ↔
      opts.isSigned = true := by
  cases hs : opts.isSigned with
  | true =>
      exact iff_of_true
        ⟨sigalg_in_signed_url sign opts hs hrc, signature_in_signed_url sign opts hs hrc⟩ rfl
  | false =>
      apply iff_of_false
      · intro hcontains
        have h1 := hcontains.1
        rw [containsStr, show (wSigAlg ++ "=").toList = "SigAlg".toList ++ ['='] from rfl] at h1
        exact no_key_in_unsigned_url sign opts "SigAlg".toList hs hrc hb1 (by decide)
          (by rcases getQueryParamByType_cases opts.type with h' | h' <;> rw [h'] <;> decide)
          (by rcases getQueryParamByType_cases opts.type with h' | h' <;> rw [h'] <;> decide)
          (by decide) (by decide) h1
      · simp

/-! ## Claim theorems -/

/-- C1: for every call to `buildRedirectURL` with `isSigned` true, the octet
string handed to the signing collaborator is exactly
`<paramName>=<encodedPayload>&SigAlg=<encoded-alg>[&RelayState=<encoded-rs>]`
— payload first, then SigAlg, then RelayState, the RelayState clause present
iff the supplied relay state is non-empty — and the resulting URL contains
this exact string followed by the percent-encoded Signature parameter. -/
theorem c1_signed_octet_string (sign : String → String → String → String → String)
    (opts : BuildRedirectConfig) (h : opts.isSigned = true) :
    signingInputSpec opts =
      getQueryParamByType opts.type ++ "=" ++ samlRequestOf opts.context ++
        "&" ++ wSigAlg ++ "=" ++
        encodeURIComponentModel opts.entitySetting.requestSignatureAlgorithm ++
        (if opts.relayState.getD "" ≠ ""
         then "&" ++ wRelayState ++ "=" ++ encodeURIComponentModel (opts.relayState.getD "")
         else "") ∧
    buildRedirectURL sign opts =
      opts.baseUrl ++ (if noParamsOf opts.baseUrl then "?" else "&") ++
        signingInputSpec opts ++ "&" ++ wSignatureName ++ "=" ++
        encodeURIComponentModel
          (sign (signingInputSpec opts) opts.entitySetting.privateKey
            opts.entitySetting.privateKeyPass opts.entitySetting.requestSignatureAlgorithm) := by
  refine ⟨?_, build_signed_eq sign opts h⟩
  simp [signingInputSpec, octetStringSpec, relayClauseSpec, String.append_assoc]

/-- Witness for C1 at a concrete signed config with relay state. -/
theorem c1_signed_octet_string_witness :
    cOpts1.isSigned = true ∧
    (signingInputSpec cOpts1 =
      getQueryParamByType cOpts1.type ++ "=" ++ samlRequestOf cOpts1.context ++
        "&" ++ wSigAlg ++ "=" ++
        encodeURIComponentModel cOpts1.entitySetting.requestSignatureAlgorithm ++
        (if cOpts1.relayState.getD "" ≠ ""
         then "&" ++ wRelayState ++ "=" ++ encodeURIComponentModel (cOpts1.relayState.getD "")
         else "") ∧
     buildRedirectURL cSign cOpts1 =
      cOpts1.baseUrl ++ (if noParamsOf cOpts1.baseUrl then "?" else "&") ++
        signingInputSpec cOpts1 ++ "&" ++ wSignatureName ++ "=" ++
        encodeURIComponentModel
          (cSign (signingInputSpec cOpts1) cOpts1.entitySetting.privateKey
            cOpts1.entitySetting.privateKeyPass cOpts1.entitySetting.requestSignatureAlgorithm)) :=
  ⟨rfl, c1_signed_octet_string cSign cOpts1 rfl⟩

/-- C4: the first appended parameter is prefixed with `&` exactly when the
base URL parses to a non-empty query string and with `?` when it parses to
none; every subsequent parameter is prefixed with `&` (visible in the
explicit shape of the produced URL). -/
theorem c4_separator_choice (sign : String → String → String → String → String)
    (opts : BuildRedirectConfig) :
    (urlQueryModel opts.baseUrl = none → noParamsOf opts.baseUrl = true) ∧
    (∀ q, urlQueryModel opts.baseUrl = some q → 1 ≤ q.length →
      noParamsOf opts.baseUrl = false) ∧
    buildRedirectURL sign opts =
      opts.baseUrl ++ (if noParamsOf opts.baseUrl then "?" else "&") ++
        getQueryParamByType opts.type ++ "=" ++
        (if opts.isSigned
         then octetStringSpec opts ++ "&" ++ wSignatureName ++ "=" ++
           encodeURIComponentModel
             (sign (signingInputSpec opts) opts.entitySetting.privateKey
               opts.entitySetting.privateKeyPass opts.entitySetting.requestSignatureAlgorithm)
         else samlRequestOf opts.context ++ relayClauseSpec opts.relayState) := by
  refine ⟨?_, ?_, ?_⟩
  · intro h
    simp [noParamsOf, h]
  · intro q hq hlen
    simp only [noParamsOf, hq, Option.getD_some, decide_eq_false_iff_not]
    omega
  · cases hb : opts.isSigned with
    | true =>
        rw [build_signed_eq sign opts hb]
        simp [signingInputSpec, String.append_assoc]
    | false =>
        rw [build_unsigned_eq sign opts hb]
        simp [String.append_assoc]

/-- Witness for C4 at concrete base URLs with and without a query. -/
theorem c4_separator_choice_witness :
    noParamsOf cOptsQ.baseUrl = false ∧ noParamsOf cOpts1.baseUrl = true ∧
    buildRedirectURL cSign cOpts1 =
      cOpts1.baseUrl ++ (if noParamsOf cOpts1.baseUrl then "?" else "&") ++
        getQueryParamByType cOpts1.type ++ "=" ++
        (if cOpts1.isSigned
         then octetStringSpec cOpts1 ++ "&" ++ wSignatureName ++ "=" ++
           encodeURIComponentModel
             (cSign (signingInputSpec cOpts1) cOpts1.entitySetting.privateKey
               cOpts1.entitySetting.privateKeyPass cOpts1.entitySetting.requestSignatureAlgorithm)
         else samlRequestOf cOpts1.context ++ relayClauseSpec cOpts1.relayState) :=
  ⟨(c4_separator_choice cSign cOptsQ).2.1 "a=1" (by decide) (by decide),
   (c4_separator_choice cSign cOpts1).1 (by decide),
   (c4_separator_choice cSign cOpts1).2.2⟩

theorem qp_logoutRequest : getQueryParamByType wLogoutRequest = wSamlRequest := by decide

set_option maxRecDepth 200000 in
/-- C2 counterexample: in the concrete signed logout request with relay
state `deeplink123`, the URL carries a `RelayState` parameter, but not
immediately after the request parameter (it is placed after `SigAlg`), so
the claimed position fails. -/
theorem c2_relaystate_position_counterexample :
    containsStr cURL2 ("&" ++ wRelayState ++ "=") ∧
    ¬ containsStr cURL2
        (wSamlRequest ++ "=" ++ samlRequestOf cRaw2 ++ "&" ++ wRelayState ++ "=") := by
  constructor
  · decide
  · decide

/-- C2 (amended): a logout request built with a non-empty relay state
carries the `RelayState` parameter immediately after the request parameter
when the request is unsigned; when it is signed, the parameter follows the
`SigAlg` parameter and precedes the `Signature` parameter (matching the
signing order payload, SigAlg, RelayState). -/
theorem c2_amended_relaystate_position (sign : String → String → String → String → String)
    (now : String) (user : UserInfo) (entity : InitTargetPair) (rs : String)
    (ctr : String → BindingContext) (im tm : MetadataView)
    (h1 : entity.init.entityMeta = some im) (h2 : entity.target.entityMeta = some tm)
    (hrs : rs ≠ "") :
    ∃ (ctx : BindingContext) (raw : String),
      logoutRequestRedirectURL sign now user entity (some rs) ctr = Except.ok ctx ∧
      (entity.target.entitySetting.wantLogoutRequestSigned = false →
        ctx.context =
          tm.getSingleLogoutService bindingRedirect ++
            (if noParamsOf (tm.getSingleLogoutService bindingRedirect) then "?" else "&") ++
            wSamlRequest ++ "=" ++ samlRequestOf raw ++
            "&" ++ wRelayState ++ "=" ++ encodeURIComponentModel rs) ∧
      (entity.target.entitySetting.wantLogoutRequestSigned = true →
        ctx.context =
          tm.getSingleLogoutService bindingRedirect ++
            (if noParamsOf (tm.getSingleLogoutService bindingRedirect) then "?" else "&") ++
            wSamlRequest ++ "=" ++ samlRequestOf raw ++
            "&" ++ wSigAlg ++ "=" ++
            encodeURIComponentModel entity.init.entitySetting.requestSignatureAlgorithm ++
            "&" ++ wRelayState ++ "=" ++ encodeURIComponentModel rs ++
            "&" ++ wSignatureName ++ "=" ++
            encodeURIComponentModel
              (sign
                (signingInputSpec
                  ⟨tm.getSingleLogoutService bindingRedirect, wLogoutRequest,
                   entity.target.entitySetting.wantLogoutRequestSigned, raw,
                   entity.init.entitySetting, some rs⟩)
                entity.init.entitySetting.privateKey
                entity.init.entitySetting.privateKeyPass
                entity.init.entitySetting.requestSignatureAlgorithm)) := by
  have hmain : ∀ raw : String,
      (entity.target.entitySetting.wantLogoutRequestSigned = false →
        buildRedirectURL sign
          ⟨tm.getSingleLogoutService bindingRedirect, wLogoutRequest,
           entity.target.entitySetting.wantLogoutRequestSigned, raw,
           entity.init.entitySetting, some rs⟩ =
          tm.getSingleLogoutService bindingRedirect ++
            (if noParamsOf (tm.getSingleLogoutService bindingRedirect) then "?" else "&") ++
            wSamlRequest ++ "=" ++ samlRequestOf raw ++
            "&" ++ wRelayState ++ "=" ++ encodeURIComponentModel rs) ∧
      (entity.target.entitySetting.wantLogoutRequestSigned = true →
        buildRedirectURL sign
          ⟨tm.getSingleLogoutService bindingRedirect, wLogoutRequest,
           entity.target.entitySetting.wantLogoutRequestSigned, raw,
           entity.init.entitySetting, some rs⟩ =
          tm.getSingleLogoutService bindingRedirect ++
            (if noParamsOf (tm.getSingleLogoutService bindingRedirect) then "?" else "&") ++
            wSamlRequest ++ "=" ++ samlRequestOf raw ++
            "&" ++ wSigAlg ++ "=" ++
            encodeURIComponentModel entity.init.entitySetting.requestSignatureAlgorithm ++
            "&" ++ wRelayState ++ "=" ++ encodeURIComponentModel rs ++
            "&" ++ wSignatureName ++ "=" ++
            encodeURIComponentModel
              (sign
                (signingInputSpec
                  ⟨tm.getSingleLogoutService bindingRedirect, wLogoutRequest,
                   entity.target.entitySetting.wantLogoutRequestSigned, raw,
                   entity.init.entitySetting, some rs⟩)
                entity.init.entitySetting.privateKey
                entity.init.entitySetting.privateKeyPass
                entity.init.entitySetting.requestSignatureAlgorithm)) := by
    intro raw
    constructor
    · intro hflag
      rw [build_unsigned_eq sign _ hflag]
      simp [relayClauseSpec, hrs, qp_logoutRequest, String.append_assoc]
    · intro hflag
      rw [build_signed_eq sign _ hflag]
      simp [signingInputSpec, octetStringSpec, relayClauseSpec, hrs, qp_logoutRequest,
        String.append_assoc]
  cases htm : entity.init.entitySetting.logoutRequestTemplate with
  | some t =>
      refine ⟨⟨(ctr t).id,
        buildRedirectURL sign
          ⟨tm.getSingleLogoutService bindingRedirect, wLogoutRequest,
           entity.target.entitySetting.wantLogoutRequestSigned, (ctr t).context,
           entity.init.entitySetting, some rs⟩⟩, (ctr t).context, ?_,
        (hmain _).1, (hmain _).2⟩
      simp [logoutRequestRedirectURL, h1, h2, htm]
  | none =>
      refine ⟨⟨entity.init.entitySetting.generateID,
        buildRedirectURL sign
          ⟨tm.getSingleLogoutService bindingRedirect, wLogoutRequest,
           entity.target.entitySetting.wantLogoutRequestSigned,
           replaceTagsByValue defaultLogoutRequestTemplate
             (logoutRequestTags entity.init.entitySetting im user now
               (tm.getSingleLogoutService bindingRedirect)
               entity.init.entitySetting.generateID),
           entity.init.entitySetting, some rs⟩⟩,
        replaceTagsByValue defaultLogoutRequestTemplate
          (logoutRequestTags entity.init.entitySetting im user now
            (tm.getSingleLogoutService bindingRedirect)
            entity.init.entitySetting.generateID), ?_,
        (hmain _).1, (hmain _).2⟩
      simp [logoutRequestRedirectURL, h1, h2, htm]

/-- Witness for the amended C2 at the concrete signed fixtures. -/
theorem c2_amended_relaystate_position_witness :
    cEntityLogout.init.entityMeta = some cIdpMeta ∧ ("deeplink123" : String) ≠ "" ∧
    (∃ (ctx : BindingContext) (raw : String),
      logoutRequestRedirectURL cSign "T0" cUser cEntityLogout (some "deeplink123") cCTR =
        Except.ok ctx ∧
      (cEntityLogout.target.entitySetting.wantLogoutRequestSigned = false →
        ctx.context =
          cTargetMeta.getSingleLogoutService bindingRedirect ++
            (if noParamsOf (cTargetMeta.getSingleLogoutService bindingRedirect)
             then "?" else "&") ++
            wSamlRequest ++ "=" ++ samlRequestOf raw ++
            "&" ++ wRelayState ++ "=" ++ encodeURIComponentModel "deeplink123") ∧
      (cEntityLogout.target.entitySetting.wantLogoutRequestSigned = true →
        ctx.context =
          cTargetMeta.getSingleLogoutService bindingRedirect ++
            (if noParamsOf (cTargetMeta.getSingleLogoutService bindingRedirect)
             then "?" else "&") ++
            wSamlRequest ++ "=" ++ samlRequestOf raw ++
            "&" ++ wSigAlg ++ "=" ++
            encodeURIComponentModel cEntityLogout.init.entitySetting.requestSignatureAlgorithm ++
            "&" ++ wRelayState ++ "=" ++ encodeURIComponentModel "deeplink123" ++
            "&" ++ wSignatureName ++ "=" ++
            encodeURIComponentModel
              (cSign
                (signingInputSpec
                  ⟨cTargetMeta.getSingleLogoutService bindingRedirect, wLogoutRequest,
                   cEntityLogout.target.entitySetting.wantLogoutRequestSigned, raw,
                   cEntityLogout.init.entitySetting, some "deeplink123"⟩)
                cEntityLogout.init.entitySetting.privateKey
                cEntityLogout.init.entitySetting.privateKeyPass
                cEntityLogout.init.entitySetting.requestSignatureAlgorithm))) :=
  ⟨rfl, by decide,
   c2_amended_relaystate_position cSign "T0" cUser cEntityLogout "deeplink123" cCTR
     cIdpMeta cTargetMeta rfl rfl (by decide)⟩

/-- C3: the encoded payload placed in the query string is exactly the
percent-encoding of the base64 encoding of the raw deflate of the raw XML,
in that order, and the inverse pipeline recovers every non-empty 8-bit raw
XML document. -/
theorem c3_encoding_pipeline (sign : String → String → String → String → String)
    (opts : BuildRedirectConfig) :
    (∃ rest : String, buildRedirectURL sign opts =
      opts.baseUrl ++ (if noParamsOf opts.baseUrl then "?" else "&") ++
        getQueryParamByType opts.type ++ "=" ++
        encodeURIComponentModel (utilityBase64Encode (utilityDeflateString opts.context)) ++
        rest) ∧
    (∀ x : String, x ≠ "" → (∀ c ∈ x.toList, c.toNat < 256) →
      decodeSamlRedirect (encodeURIComponentModel (utilityBase64Encode (utilityDeflateString x)))
        = some x) := by
  constructor
  · cases hs : opts.isSigned with
    | true =>
        refine ⟨"&" ++ wSigAlg ++ "=" ++
          encodeURIComponentModel opts.entitySetting.requestSignatureAlgorithm ++
          relayClauseSpec opts.relayState ++ "&" ++ wSignatureName ++ "=" ++
          encodeURIComponentModel
            (sign (signingInputSpec opts) opts.entitySetting.privateKey
              opts.entitySetting.privateKeyPass
              opts.entitySetting.requestSignatureAlgorithm), ?_⟩
        rw [build_signed_eq sign opts hs]
        simp [signingInputSpec, octetStringSpec, samlRequestOf, String.append_assoc]
    | false =>
        refine ⟨relayClauseSpec opts.relayState, ?_⟩
        rw [build_unsigned_eq sign opts hs]
        simp [samlRequestOf, String.append_assoc]
  · intro x _ hx
    exact decodeSamlRedirect_encodes x hx

/-- Witness for C3: the pipeline round-trips a concrete document. -/
theorem c3_encoding_pipeline_witness :
    ("<x/>" : String) ≠ "" ∧
    decodeSamlRedirect
      (encodeURIComponentModel (utilityBase64Encode (utilityDeflateString "<x/>")))
      = some "<x/>" :=
  ⟨by decide, (c3_encoding_pipeline cSign cOpts1).2 "<x/>" (by decide) (by decide)⟩

/-- C5: when the relay state is absent or empty, no `RelayState` parameter
appears anywhere in the produced URL (given a base URL that does not itself
contain one) and no `RelayState` segment appears in the signing input; in
particular it is never emitted as an empty parameter. -/
theorem c5_relaystate_omitted (sign : String → String → String → String → String)
    (opts : BuildRedirectConfig)
    (hrs : opts.relayState = none ∨ opts.relayState = some "")
    (hb : ¬ containsStr opts.baseUrl (wRelayState ++ "=")) :
    ¬ containsStr (buildRedirectURL sign opts) (wRelayState ++ "=") ∧
    ¬ containsStr (signingInputSpec opts) (wRelayState ++ "=") :=
  no_relay_in_build sign opts hrs hb

/-- Witness for C5 at a concrete config whose relay state is the empty
string. -/
theorem c5_relaystate_omitted_witness :
    (cOptsE.relayState = none ∨ cOptsE.relayState = some "") ∧
    (¬ containsStr (buildRedirectURL cSign cOptsE) (wRelayState ++ "=") ∧
     ¬ containsStr (signingInputSpec cOptsE) (wRelayState ++ "=")) :=
  ⟨Or.inr rfl, c5_relaystate_omitted cSign cOptsE (Or.inr rfl) (by decide)⟩

/-- C6: the login-request URL carries `SigAlg` and `Signature` parameters
exactly when the service provider's metadata marks outbound authentication
requests as signed (for base URLs not already containing such
parameters); when unsigned it carries neither. -/
theorem c6_login_signed_iff (sign : String → String → String → String → String)
    (now : String) (entity : IdpSpPair) (ctr : String → BindingContext)
    (im sm : MetadataView)
    (h1 : entity.idp.entityMeta = some im) (h2 : entity.sp.entityMeta = some sm)
    (hb1 : ¬ containsStr (im.getSingleSignOnService bindingRedirect) (wSigAlg ++ "="))
    (hb2 : ¬ containsStr (im.getSingleSignOnService bindingRedirect) (wSignatureName ++ "=")) :
    ∃ ctx : BindingContext, loginRequestRedirectURL sign now entity ctr = Except.ok ctx ∧
      ((containsStr ctx.context (wSigAlg ++ "=") ∧
        containsStr ctx.context (wSignatureName ++ "=")) ↔ sm.isAuthnRequestSigned = true) ∧
      (sm.isAuthnRequestSigned = false →
        ¬ containsStr ctx.context (wSigAlg ++ "=") ∧
        ¬ containsStr ctx.context (wSignatureName ++ "=")) := by
  have main : ∀ raw : String,
      ((containsStr
          (buildRedirectURL sign
            ⟨im.getSingleSignOnService bindingRedirect, wSamlRequest,
             sm.isAuthnRequestSigned, raw, entity.sp.entitySetting, none⟩) (wSigAlg ++ "=") ∧
        containsStr
          (buildRedirectURL sign
            ⟨im.getSingleSignOnService bindingRedirect, wSamlRequest,
             sm.isAuthnRequestSigned, raw, entity.sp.entitySetting, none⟩)
          (wSignatureName ++ "=")) ↔ sm.isAuthnRequestSigned = true) := by
    intro raw
    exact build_sig_iff sign
      ⟨im.getSingleSignOnService bindingRedirect, wSamlRequest,
       sm.isAuthnRequestSigned, raw, entity.sp.entitySetting, none⟩ rfl hb1 hb2
  have noneg : ∀ raw : String, sm.isAuthnRequestSigned = false →
      ¬ containsStr
          (buildRedirectURL sign
            ⟨im.getSingleSignOnService bindingRedirect, wSamlRequest,
             sm.isAuthnRequestSigned, raw, entity.sp.entitySetting, none⟩) (wSigAlg ++ "=") ∧
      ¬ containsStr
          (buildRedirectURL sign
            ⟨im.getSingleSignOnService bindingRedirect, wSamlRequest,
             sm.isAuthnRequestSigned, raw, entity.sp.entitySetting, none⟩)
          (wSignatureName ++ "=") := by
    intro raw hs
    constructor
    · intro hcon
      rw [containsStr, show (wSigAlg ++ "=").toList = "SigAlg".toList ++ ['='] from rfl] at hcon
      exact no_key_in_unsigned_url sign
        ⟨im.getSingleSignOnService bindingRedirect, wSamlRequest,
         sm.isAuthnRequestSigned, raw, entity.sp.entitySetting, none⟩
        "SigAlg".toList hs rfl hb1 (by decide)
        (by rcases getQueryParamByType_cases wSamlRequest with h' | h' <;> rw [h'] <;> decide)
        (by rcases getQueryParamByType_cases wSamlRequest with h' | h' <;> rw [h'] <;> decide)
        (by decide) (by decide) hcon
    · intro hcon
      rw [containsStr,
        show (wSignatureName ++ "=").toList = "Signature".toList ++ ['='] from rfl] at hcon
      exact no_key_in_unsigned_url sign
        ⟨im.getSingleSignOnService bindingRedirect, wSamlRequest,
         sm.isAuthnRequestSigned, raw, entity.sp.entitySetting, none⟩
        "Signature".toList hs rfl hb2 (by decide)
        (by rcases getQueryParamByType_cases wSamlRequest with h' | h' <;> rw [h'] <;> decide)
        (by rcases getQueryParamByType_cases wSamlRequest with h' | h' <;> rw [h'] <;> decide)
        (by decide) (by decide) hcon
  cases htm : entity.sp.entitySetting.loginRequestTemplate with
  | some t =>
      refine ⟨⟨(ctr t).id,
        buildRedirectURL sign
          ⟨im.getSingleSignOnService bindingRedirect, wSamlRequest,
           sm.isAuthnRequestSigned, (ctr t).context, entity.sp.entitySetting, none⟩⟩,
        ?_, main _, noneg _⟩
      simp [loginRequestRedirectURL, h1, h2, htm]
  | none =>
      refine ⟨⟨entity.sp.entitySetting.generateID,
        buildRedirectURL sign
          ⟨im.getSingleSignOnService bindingRedirect, wSamlRequest,
           sm.isAuthnRequestSigned,
           replaceTagsByValue defaultLoginRequestTemplate
             (loginRequestTags entity.sp.entitySetting sm now
               (im.getSingleSignOnService bindingRedirect)
               entity.sp.entitySetting.generateID),
           entity.sp.entitySetting, none⟩⟩,
        ?_, main _, noneg _⟩
      simp [loginRequestRedirectURL, h1, h2, htm]

/-- Witness for C6 at the concrete signed fixtures. -/
theorem c6_login_signed_iff_witness :
    cEntityLogin.idp.entityMeta = some cIdpMeta ∧
    (∃ ctx : BindingContext, loginRequestRedirectURL cSign "T0" cEntityLogin cCTR =
        Except.ok ctx ∧
      ((containsStr ctx.context (wSigAlg ++ "=") ∧
        containsStr ctx.context (wSignatureName ++ "=")) ↔ cSpMeta.isAuthnRequestSigned = true) ∧
      (cSpMeta.isAuthnRequestSigned = false →
        ¬ containsStr ctx.context (wSigAlg ++ "=") ∧
        ¬ containsStr ctx.context (wSignatureName ++ "="))) :=
  ⟨rfl, c6_login_signed_iff cSign "T0" cEntityLogin cCTR cIdpMeta cSpMeta rfl rfl
    (by decide) (by decide)⟩

/-- C10: the login builder forwards no relay state, so the login-request
URL contains no `RelayState` parameter (given a base URL that does not
itself contain one) and no `RelayState` segment enters its signing
input. -/
theorem c10_login_no_relaystate (sign : String → String → String → String → String)
    (now : String) (entity : IdpSpPair) (ctr : String → BindingContext)
    (im sm : MetadataView)
    (h1 : entity.idp.entityMeta = some im) (h2 : entity.sp.entityMeta = some sm)
    (hb : ¬ containsStr (im.getSingleSignOnService bindingRedirect) (wRelayState ++ "=")) :
    ∃ (ctx : BindingContext) (raw : String),
      loginRequestRedirectURL sign now entity ctr = Except.ok ctx ∧
      ctx.context = buildRedirectURL sign
        ⟨im.getSingleSignOnService bindingRedirect, wSamlRequest,
         sm.isAuthnRequestSigned, raw, entity.sp.entitySetting, none⟩ ∧
      ¬ containsStr ctx.context (wRelayState ++ "=") ∧
      ¬ containsStr
          (signingInputSpec
            ⟨im.getSingleSignOnService bindingRedirect, wSamlRequest,
             sm.isAuthnRequestSigned, raw, entity.sp.entitySetting, none⟩)
          (wRelayState ++ "=") := by
  cases htm : entity.sp.entitySetting.loginRequestTemplate with
  | some t =>
      refine ⟨⟨(ctr t).id,
        buildRedirectURL sign
          ⟨im.getSingleSignOnService bindingRedirect, wSamlRequest,
           sm.isAuthnRequestSigned, (ctr t).context, entity.sp.entitySetting, none⟩⟩,
        (ctr t).context, ?_, rfl, ?_, ?_⟩
      · simp [loginRequestRedirectURL, h1, h2, htm]
      · exact (no_relay_in_build sign _ (Or.inl rfl) hb).1
      · exact (no_relay_in_build sign _ (Or.inl rfl) hb).2
  | none =>
      refine ⟨⟨entity.sp.entitySetting.generateID,
        buildRedirectURL sign
          ⟨im.getSingleSignOnService bindingRedirect, wSamlRequest,
           sm.isAuthnRequestSigned,
           replaceTagsByValue defaultLoginRequestTemplate
             (loginRequestTags entity.sp.entitySetting sm now
               (im.getSingleSignOnService bindingRedirect)
               entity.sp.entitySetting.generateID),
           entity.sp.entitySetting, none⟩⟩,
        replaceTagsByValue defaultLoginRequestTemplate
          (loginRequestTags entity.sp.entitySetting sm now
            (im.getSingleSignOnService bindingRedirect)
            entity.sp.entitySetting.generateID), ?_, rfl, ?_, ?_⟩
      · simp [loginRequestRedirectURL, h1, h2, htm]
      · exact (no_relay_in_build sign _ (Or.inl rfl) hb).1
      · exact (no_relay_in_build sign _ (Or.inl rfl) hb).2

/-- Witness for C10 at the concrete fixtures. -/
theorem c10_login_no_relaystate_witness :
    cEntityLogin.sp.entityMeta = some cSpMeta ∧
    (∃ (ctx : BindingContext) (raw : String),
      loginRequestRedirectURL cSign "T0" cEntityLogin cCTR = Except.ok ctx ∧
      ctx.context = buildRedirectURL cSign
        ⟨cIdpMeta.getSingleSignOnService bindingRedirect, wSamlRequest,
         cSpMeta.isAuthnRequestSigned, raw, cEntityLogin.sp.entitySetting, none⟩ ∧
      ¬ containsStr ctx.context (wRelayState ++ "=") ∧
      ¬ containsStr
          (signingInputSpec
            ⟨cIdpMeta.getSingleSignOnService bindingRedirect, wSamlRequest,
             cSpMeta.isAuthnRequestSigned, raw, cEntityLogin.sp.entitySetting, none⟩)
          (wRelayState ++ "=")) :=
  ⟨rfl, c10_login_no_relaystate cSign "T0" cEntityLogin cCTR cIdpMeta cSpMeta rfl rfl
    (by decide)⟩

/-- C7: each of the three builders fails with the configuration error
`Missing declaration of metadata`, producing no URL or identifier, whenever
a required metadata view is absent. -/
theorem c7_missing_metadata_error (sign : String → String → String → String → String)
    (now : String) (entityL : IdpSpPair) (user : UserInfo) (entityT : InitTargetPair)
    (reqInfo : Option RequestInfo) (rs : Option String) (ctr : String → BindingContext) :
    (entityL.idp.entityMeta = none ∨ entityL.sp.entityMeta = none →
      loginRequestRedirectURL sign now entityL ctr =
        Except.error "Missing declaration of metadata") ∧
    (entityT.init.entityMeta = none ∨ entityT.target.entityMeta = none →
      logoutRequestRedirectURL sign now user entityT rs ctr =
        Except.error "Missing declaration of metadata") ∧
    (entityT.init.entityMeta = none ∨ entityT.target.entityMeta = none →
      logoutResponseRedirectURL sign now reqInfo entityT rs ctr =
        Except.error "Missing declaration of metadata") := by
  refine ⟨?_, ?_, ?_⟩
  · intro h
    rcases h with h | h
    · cases hsp : entityL.sp.entityMeta <;> simp [loginRequestRedirectURL, h, hsp]
    · cases hidp : entityL.idp.entityMeta <;> simp [loginRequestRedirectURL, h, hidp]
  · intro h
    rcases h with h | h
    · cases ht : entityT.target.entityMeta <;> simp [logoutRequestRedirectURL, h, ht]
    · cases hi : entityT.init.entityMeta <;> simp [logoutRequestRedirectURL, h, hi]
  · intro h
    rcases h with h | h
    · cases ht : entityT.target.entityMeta <;> simp [logoutResponseRedirectURL, h, ht]
    · cases hi : entityT.init.entityMeta <;> simp [logoutResponseRedirectURL, h, hi]

/-- Witness for C7 at entities with a missing metadata view. -/
theorem c7_missing_metadata_error_witness :
    (cEntityLoginNoMeta.idp.entityMeta = none ∨ cEntityLoginNoMeta.sp.entityMeta = none) ∧
    loginRequestRedirectURL cSign "T0" cEntityLoginNoMeta cCTR =
      Except.error "Missing declaration of metadata" ∧
    logoutRequestRedirectURL cSign "T0" cUser cEntityLogoutNoMeta none cCTR =
      Except.error "Missing declaration of metadata" ∧
    logoutResponseRedirectURL cSign "T0" none cEntityLogoutNoMeta none cCTR =
      Except.error "Missing declaration of metadata" :=
  ⟨Or.inl rfl,
   (c7_missing_metadata_error cSign "T0" cEntityLoginNoMeta cUser cEntityLogoutNoMeta
      none none cCTR).1 (Or.inl rfl),
   (c7_missing_metadata_error cSign "T0" cEntityLoginNoMeta cUser cEntityLogoutNoMeta
      none none cCTR).2.1 (Or.inr rfl),
   (c7_missing_metadata_error cSign "T0" cEntityLoginNoMeta cUser cEntityLogoutNoMeta
      none none cCTR).2.2 (Or.inr rfl)⟩

/-- C8: on the default-template path the logout response carries an
`InResponseTo` placeholder exactly when the original request info carries
an extracted logout-request identifier, and its value is that identifier;
otherwise no `InResponseTo` placeholder is supplied to the substitution. -/
theorem c8_inresponseto_placeholder (sign : String → String → String → String → String)
    (now : String) (rs : Option String) (ctr : String → BindingContext)
    (reqInfo : Option RequestInfo) (entity : InitTargetPair) (im tm : MetadataView)
    (h1 : entity.init.entityMeta = some im) (h2 : entity.target.entityMeta = some tm)
    (h3 : entity.init.entitySetting.logoutResponseTemplate = none) :
    logoutResponseRedirectURL sign now reqInfo entity rs ctr =
      Except.ok
        ⟨entity.init.entitySetting.generateID,
         buildRedirectURL sign
           ⟨tm.getSingleLogoutService bindingRedirect, wLogoutResponse,
            entity.target.entitySetting.wantLogoutResponseSigned,
            replaceTagsByValue defaultLogoutResponseTemplate
              (logoutResponseTags im now (tm.getSingleLogoutService bindingRedirect)
                entity.init.entitySetting.generateID reqInfo),
            entity.init.entitySetting, rs⟩⟩ ∧
    (∀ lrid, extractLogoutRequestId reqInfo = some lrid →
      List.lookup "InResponseTo"
        (logoutResponseTags im now (tm.getSingleLogoutService bindingRedirect)
          entity.init.entitySetting.generateID reqInfo) = some lrid) ∧
    (extractLogoutRequestId reqInfo = none →
      List.lookup "InResponseTo"
        (logoutResponseTags im now (tm.getSingleLogoutService bindingRedirect)
          entity.init.entitySetting.generateID reqInfo) = none) := by
  refine ⟨?_, ?_, ?_⟩
  · simp [logoutResponseRedirectURL, h1, h2, h3]
  · intro lrid hl
    rcases reqInfo with _ | ⟨_ | ⟨_ | ⟨lid⟩⟩⟩
    · simp [extractLogoutRequestId] at hl
    · simp [extractLogoutRequestId] at hl
    · simp [extractLogoutRequestId] at hl
    · simp only [extractLogoutRequestId, Option.some.injEq] at hl
      subst hl
      rfl
  · intro h0
    rcases reqInfo with _ | ⟨_ | ⟨_ | ⟨lid⟩⟩⟩
    · rfl
    · rfl
    · rfl
    · simp [extractLogoutRequestId] at h0

/-- Witness for C8 with and without an extracted identifier. -/
theorem c8_inresponseto_placeholder_witness :
    List.lookup "InResponseTo"
      (logoutResponseTags cIdpMeta "T0" (cTargetMeta.getSingleLogoutService bindingRedirect)
        cEntityLogout.init.entitySetting.generateID cRequestInfo) = some "_abc123" ∧
    List.lookup "InResponseTo"
      (logoutResponseTags cIdpMeta "T0" (cTargetMeta.getSingleLogoutService bindingRedirect)
        cEntityLogout.init.entitySetting.generateID none) = none :=
  ⟨(c8_inresponseto_placeholder cSign "T0" none cCTR cRequestInfo cEntityLogout
      cIdpMeta cTargetMeta rfl rfl rfl).2.1 "_abc123" rfl,
   (c8_inresponseto_placeholder cSign "T0" none cCTR none cEntityLogout
      cIdpMeta cTargetMeta rfl rfl rfl).2.2 rfl⟩

/-- C9: on the default-template path every builder returns a
`MessageContext` whose `id` is the freshly generated identifier, and the
value supplied for the protocol message's `ID` placeholder is that same
identifier. -/
theorem c9_id_placeholder_consistency (sign : String → String → String → String → String)
    (now : String) (entityL : IdpSpPair) (user : UserInfo) (entityT : InitTargetPair)
    (reqInfo : Option RequestInfo) (rs : Option String) (ctr : String → BindingContext)
    (imL smL imT tmT : MetadataView)
    (h1 : entityL.idp.entityMeta = some imL) (h2 : entityL.sp.entityMeta = some smL)
    (h3 : entityL.sp.entitySetting.loginRequestTemplate = none)
    (h4 : entityT.init.entityMeta = some imT) (h5 : entityT.target.entityMeta = some tmT)
    (h6 : entityT.init.entitySetting.logoutRequestTemplate = none)
    (h7 : entityT.init.entitySetting.logoutResponseTemplate = none) :
    (∃ ctx : BindingContext, loginRequestRedirectURL sign now entityL ctr = Except.ok ctx ∧
      ctx.id = entityL.sp.entitySetting.generateID ∧
      List.lookup "ID"
        (loginRequestTags entityL.sp.entitySetting smL now
          (imL.getSingleSignOnService bindingRedirect) ctx.id) = some ctx.id) ∧
    (∃ ctx : BindingContext, logoutRequestRedirectURL sign now user entityT rs ctr =
        Except.ok ctx ∧
      ctx.id = entityT.init.entitySetting.generateID ∧
      List.lookup "ID"
        (logoutRequestTags entityT.init.entitySetting imT user now
          (tmT.getSingleLogoutService bindingRedirect) ctx.id) = some ctx.id) ∧
    (∃ ctx : BindingContext, logoutResponseRedirectURL sign now reqInfo entityT rs ctr =
        Except.ok ctx ∧
      ctx.id = entityT.init.entitySetting.generateID ∧
      List.lookup "ID"
        (logoutResponseTags imT now (tmT.getSingleLogoutService bindingRedirect)
          ctx.id reqInfo) = some ctx.id) := by
  refine ⟨?_, ?_, ?_⟩
  · refine ⟨⟨entityL.sp.entitySetting.generateID,
      buildRedirectURL sign
        ⟨imL.getSingleSignOnService bindingRedirect, wSamlRequest, smL.isAuthnRequestSigned,
         replaceTagsByValue defaultLoginRequestTemplate
           (loginRequestTags entityL.sp.entitySetting smL now
             (imL.getSingleSignOnService bindingRedirect) entityL.sp.entitySetting.generateID),
         entityL.sp.entitySetting, none⟩⟩, ?_, rfl, rfl⟩
    simp [loginRequestRedirectURL, h1, h2, h3]
  · refine ⟨⟨entityT.init.entitySetting.generateID,
      buildRedirectURL sign
        ⟨tmT.getSingleLogoutService bindingRedirect, wLogoutRequest,
         entityT.target.entitySetting.wantLogoutRequestSigned,
         replaceTagsByValue defaultLogoutRequestTemplate
           (logoutRequestTags entityT.init.entitySetting imT user now
             (tmT.getSingleLogoutService bindingRedirect)
             entityT.init.entitySetting.generateID),
         entityT.init.entitySetting, rs⟩⟩, ?_, rfl, rfl⟩
    simp [logoutRequestRedirectURL, h4, h5, h6]
  · refine ⟨⟨entityT.init.entitySetting.generateID,
      buildRedirectURL sign
        ⟨tmT.getSingleLogoutService bindingRedirect, wLogoutResponse,
         entityT.target.entitySetting.wantLogoutResponseSigned,
         replaceTagsByValue defaultLogoutResponseTemplate
           (logoutResponseTags imT now (tmT.getSingleLogoutService bindingRedirect)
             entityT.init.entitySetting.generateID reqInfo),
         entityT.init.entitySetting, rs⟩⟩, ?_, rfl, rfl⟩
    simp [logoutResponseRedirectURL, h4, h5, h7]

/-- Witness for C9 at the concrete fixtures. -/
theorem c9_id_placeholder_consistency_witness :
    (∃ ctx : BindingContext, loginRequestRedirectURL cSign "T0" cEntityLogin cCTR =
        Except.ok ctx ∧
      ctx.id = cEntityLogin.sp.entitySetting.generateID ∧
      List.lookup "ID"
        (loginRequestTags cEntityLogin.sp.entitySetting cSpMeta "T0"
          (cIdpMeta.getSingleSignOnService bindingRedirect) ctx.id) = some ctx.id) ∧
    (∃ ctx : BindingContext, logoutRequestRedirectURL cSign "T0" cUser cEntityLogout none cCTR =
        Except.ok ctx ∧
      ctx.id = cEntityLogout.init.entitySetting.generateID ∧
      List.lookup "ID"
        (logoutRequestTags cEntityLogout.init.entitySetting cIdpMeta cUser "T0"
          (cTargetMeta.getSingleLogoutService bindingRedirect) ctx.id) = some ctx.id) ∧
    (∃ ctx : BindingContext, logoutResponseRedirectURL cSign "T0" cRequestInfo cEntityLogout
        none cCTR = Except.ok ctx ∧
      ctx.id = cEntityLogout.init.entitySetting.generateID ∧
      List.lookup "ID"
        (logoutResponseTags cIdpMeta "T0" (cTargetMeta.getSingleLogoutService bindingRedirect)
          ctx.id cRequestInfo) = some ctx.id) :=
  c9_id_placeholder_consistency cSign "T0" cEntityLogin cUser cEntityLogout cRequestInfo
    none cCTR cIdpMeta cSpMeta cIdpMeta cTargetMeta rfl rfl rfl rfl rfl rfl rfl

end SamlRedirect
